import Mathlib

/-!
# Bill-Processing-System: the billing-period workflow

A shallow embedding of `models/bills-models.go`, `models/workflow-models.go`,
`workflows/bill-workflow-helper.go` and `workflows/bill-workflow.go`, with the
request validation of `bills/bills-api-helper.go` and the period summary of
`bills/bills-api.go`.

Modelling conventions.

* `float64` amounts are exact rationals (`ℚ`): the rates `2.5` and `0.4` and the
  test amounts are exact there, and every arithmetic step of the source is kept
  as the same operation in the same order.  Where the rounding of float64 products
  decides a property (the currency round trip), `ConvertCurrencyAmountFloat64` keeps
  it: each product is rounded to the nearest float64, ties to even.
* `time.Time` is an integer number of nanoseconds, `time.Duration` likewise.
* Go string types (`Currency`, `BillStatus`) are `String`.
* `[]*Bill` is a `List Bill`: the workflow input is decoded from a payload and
  bills are created one by one, so no two slots share a pointer and no slot is
  nil.  A write through the pointer returned by `FindBillState` is a change of
  the first list element with that id (`writeBillState`).
* A nil-pointer dereference is the result `none`.
* The workflow clock `workflow.Now(ctx)` and the wall clock `time.Now()` are
  two separate inputs, `now` and `wall`.
* Go `int` and `time.Duration` are 64-bit: where the source multiplies them the
  product is wrapped to the signed 64-bit range (`wrap64`).
-/

namespace BillProcessing

/-- Instants and durations, in nanoseconds. -/
abbrev Time := Int

/-- The constant `time.Hour`, in nanoseconds. -/
def Hour : Int := 3600 * 1000000000

/-- The constant `time.Minute`, in nanoseconds. -/
def Minute : Int := 60 * 1000000000

/-- The constant `time.Millisecond`, in nanoseconds. -/
def Millisecond : Int := 1000000

namespace models

/-- Go `type Currency string`. -/
abbrev Currency := String

/-- Go `type BillStatus string`. -/
abbrev BillStatus := String

def USD : Currency := "USD"

def GEL : Currency := "GEL"

def StatusOpen : BillStatus := "OPEN"

def StatusClosed : BillStatus := "CLOSED"

/-- A charge or fee within a bill (`models.LineItem`). -/
structure LineItem where
  ID : String
  Description : String
  Amount : ℚ
  Quantity : Int
  AddedAt : Time
deriving DecidableEq

/-- One bill of a billing period (`models.Bill`). -/
structure Bill where
  ID : String
  Status : models.BillStatus
  Currency : models.Currency
  TotalAmount : ℚ
  LineItems : List LineItem
  CreatedAt : Time
  ClosedAt : Time
  CloseReason : String
  WorkflowID : String
deriving DecidableEq

/-- The workflow state (`models.BillWorkflowInput`). -/
structure BillWorkflowInput where
  WorkflowID : String
  CustomerID : String
  Currency : models.Currency
  BillingPeriodDays : Int
  BillStates : List Bill
  StartedAt : Time
deriving DecidableEq

/-- Payload of the add-line-item signal; `LineItem` is the pointed-to item. -/
structure AddLineItemSignal where
  LineItem : models.LineItem
  BillID : String
  Currency : models.Currency
deriving DecidableEq

/-- Payload of the close-bill signal. -/
structure CloseBillSignal where
  Reason : String
  BillID : String
deriving DecidableEq

/-- Payload of the create-bill signal. -/
structure CreateBillSignal where
  Currency : models.Currency
  WorkflowID : String
  BillID : String
deriving DecidableEq

/-- Body of the add-line-item request (`models.AddLineItemRequest`). -/
structure AddLineItemRequest where
  Description : String
  Amount : ℚ
  Quantity : Int
  Currency : String
deriving DecidableEq

/-- Body of the start-billing-period request (`models.StartBillingPeriodRequest`). -/
structure StartBillingPeriodRequest where
  CustomerID : String
  Currency : models.Currency
  BillingPeriodDays : Int
deriving DecidableEq

/-- Response of the close-billing-period call (`models.CloseBillingPeriodResponse`). -/
structure CloseBillingPeriodResponse where
  WorkflowID : String
  Bills : List Bill
  FinalAmountUSD : ℚ
  FinalAmountGEL : ℚ
deriving DecidableEq

/-- Payload of the get-bill query (`models.GetBillRequest`). -/
structure GetBillRequest where
  CustomerID : String
  BillID : String
deriving DecidableEq

/-- Payload of the list-bills query (`models.ListBillsRequest`). -/
structure ListBillsRequest where
  Status : String
deriving DecidableEq

/-- Go `func (c Currency) IsValid() bool`. -/
def Currency.IsValid (c : Currency) : Bool :=
  c == USD || c == GEL

/-- Go `func (s BillStatus) IsValid() bool`. -/
def BillStatus.IsValid (s : BillStatus) : Bool :=
  s == StatusOpen || s == StatusClosed

/-- Go `func (b *Bill) CanAddLineItems() bool`. -/
def Bill.CanAddLineItems (b : Bill) : Bool :=
  b.Status == StatusOpen

/-- Go `func (b *Bill) CalculateTotal() float64`: the loop
`total += item.Amount * float64(item.Quantity)` from `total := 0.0`. -/
def Bill.CalculateTotal (b : Bill) : ℚ :=
  b.LineItems.foldl (fun total item => total + item.Amount * (item.Quantity : ℚ)) 0

/-- Go `func (b *Bill) AddLineItem(lineItem *LineItem)`. -/
def Bill.AddLineItem (b : Bill) (lineItem : LineItem) : Bill :=
  { b with
    LineItems := b.LineItems ++ [lineItem]
    TotalAmount := b.TotalAmount + lineItem.Amount * (lineItem.Quantity : ℚ) }

/-- Go `func (b *Bill) Close(reason string)`; `wall` is the value of
`time.Now()` read inside it. -/
def Bill.Close (b : Bill) (wall : Time) (reason : String) : Bill :=
  let b1 : Bill := { b with Status := StatusClosed }
  let b2 : Bill := { b1 with ClosedAt := wall }
  let b3 : Bill := { b2 with CloseReason := reason }
  { b3 with TotalAmount := b3.CalculateTotal }

/-- Go `func ConvertCurrencyAmount(currency1, currency2 Currency, amount float64)`. -/
def ConvertCurrencyAmount (currency1 currency2 : Currency) (amount : ℚ) : ℚ :=
  if currency1 = currency2 then amount
  else if currency1 = USD ∧ currency2 = GEL then amount * (5 / 2)
  else if currency1 = GEL ∧ currency2 = USD then amount * (2 / 5)
  else amount

/-- The integer nearest to `m`, the even one of the two when `m` lies halfway. -/
def roundHalfEven (m : ℚ) : Int :=
  let n : Int := ⌊m⌋
  let frac : ℚ := m - n
  if frac < 1 / 2 then n
  else if 1 / 2 < frac then n + 1
  else if n % 2 = 0 then n else n + 1

/-- The float64 nearest to the rational `x`, ties to even (IEEE 754 binary64, 53-bit
significand): `x` is scaled so that its magnitude lies between 2^52 and 2^53, rounded
to an integer and scaled back.  The exponent is not bounded, so the value is the one
float64 arithmetic gives whenever it lies in the normal range, from 2^-1022 up to
2^1024; overflow and subnormal results are outside this function. -/
def roundFloat64 (x : ℚ) : ℚ :=
  if x = 0 then 0
  else
    let e : Int := Int.log 2 |x| - 52
    (roundHalfEven (x / 2 ^ e) : ℚ) * 2 ^ e

/-- Go `x * y` on float64 values: the exact product rounded to the nearest float64. -/
def mulFloat64 (x y : ℚ) : ℚ :=
  roundFloat64 (x * y)

/-- Go `func ConvertCurrencyAmount(currency1, currency2 Currency, amount float64)`
with its float64 arithmetic kept: the constants `2.5` and `0.4` are the float64
values nearest to 5/2 and 2/5, and each product is rounded. -/
def ConvertCurrencyAmountFloat64 (currency1 currency2 : Currency) (amount : ℚ) : ℚ :=
  if currency1 = currency2 then amount
  else if currency1 = USD ∧ currency2 = GEL then mulFloat64 amount (roundFloat64 (5 / 2))
  else if currency1 = GEL ∧ currency2 = USD then mulFloat64 amount (roundFloat64 (2 / 5))
  else amount

end models

namespace workflows

open models

/-- Go `func FindBillState(billStates []*models.Bill, billID string) *models.Bill`:
the first bill with the id, `none` for the nil pointer. -/
def FindBillState : List Bill → String → Option Bill
  | [], _ => none
  | b :: rest, billID => if b.ID = billID then some b else FindBillState rest billID

/-- A write through the pointer `FindBillState` returns: `f` is applied to the
first bill with the id, every other slot is left as it is. -/
def writeBillState (f : Bill → Bill) : List Bill → String → List Bill
  | [], _ => []
  | b :: rest, billID =>
    if b.ID = billID then f b :: rest else b :: writeBillState f rest billID

/-- Go `func getAccrualFactor(startTime, currentTime time.Time) float64`:
`startTime.Before(currentTime.Add(-1 * 24 * time.Hour))` selects `2.5`. -/
def getAccrualFactor (startTime currentTime : Time) : ℚ :=
  if startTime < currentTime + (-1 * 24 * Hour) then 5 / 2 else 1

/-- Go `handleCreateBillSignal`; `now` is `workflow.Now(ctx)`. -/
def handleCreateBillSignal (now : Time) (workflowState : BillWorkflowInput)
    (signal : CreateBillSignal) : BillWorkflowInput :=
  let newBill : Bill :=
    { ID := signal.BillID
      Status := StatusOpen
      Currency := signal.Currency
      TotalAmount := 0
      LineItems := []
      CreatedAt := now
      ClosedAt := 0
      CloseReason := ""
      WorkflowID := signal.WorkflowID }
  { workflowState with BillStates := workflowState.BillStates ++ [newBill] }

/-- Go `handleCloseBillSignal`; `wall` is the `time.Now()` read by `Bill.Close`. -/
def handleCloseBillSignal (wall : Time) (workflowState : BillWorkflowInput)
    (signal : CloseBillSignal) : BillWorkflowInput :=
  match FindBillState workflowState.BillStates signal.BillID with
  | none => workflowState
  | some _ =>
    { workflowState with
      BillStates :=
        writeBillState (fun b => b.Close wall signal.Reason) workflowState.BillStates
          signal.BillID }

/-- Go `handleAddLineItemSignal`; `now` is `workflow.Now(ctx)`.  The source reads
`billState.Currency` with no nil check, so a missing bill is a nil dereference:
`none`. -/
def handleAddLineItemSignal (now : Time) (workflowState : BillWorkflowInput)
    (signal : AddLineItemSignal) : Option BillWorkflowInput :=
  let item1 : LineItem := { signal.LineItem with AddedAt := now }
  let accrualFactor := getAccrualFactor workflowState.StartedAt item1.AddedAt
  match FindBillState workflowState.BillStates signal.BillID with
  | none => none
  | some billState =>
    let item2 : LineItem :=
      { item1 with
        Amount := ConvertCurrencyAmount signal.Currency billState.Currency item1.Amount
          * accrualFactor }
    some
      { workflowState with
        BillStates :=
          writeBillState
            (fun b =>
              { b with
                LineItems := b.LineItems ++ [item2]
                TotalAmount := b.TotalAmount + item2.Amount })
            workflowState.BillStates signal.BillID }

/-- Go `closeAllBillsDueToTimeout`: every bill whose status is not `CLOSED` is
closed with the fixed reason.  The readings of `time.Now()` inside the successive
calls of `Bill.Close` are taken as the one reading `wall`. -/
def closeAllBillsDueToTimeout (wall : Time) (input : BillWorkflowInput) :
    BillWorkflowInput :=
  { input with
    BillStates :=
      input.BillStates.map fun b =>
        if b.Status ≠ StatusClosed then b.Close wall "Billing period timed out" else b }

/-- The event sources of the selector in `BillWorkflow`. -/
inductive Event where
  | AddLineItem (signal : AddLineItemSignal)
  | CloseBill (signal : CloseBillSignal)
  | CreateBill (signal : CreateBillSignal)
  | CloseBillingPeriod
  | TimerFired
deriving DecidableEq

/-- The variables of the main loop of `BillWorkflow`. -/
structure LoopState where
  input : BillWorkflowInput
  timerFired : Bool
deriving DecidableEq

/-- One `selector.Select(ctx)`: the callback of the ready event source runs.
Only the timer callback sets `timerFired`. -/
def selectStep (now wall : Time) (st : LoopState) : Event → Option LoopState
  | .AddLineItem signal =>
    match handleAddLineItemSignal now st.input signal with
    | none => none
    | some input => some { st with input := input }
  | .CloseBill signal => some { st with input := handleCloseBillSignal wall st.input signal }
  | .CreateBill signal => some { st with input := handleCreateBillSignal now st.input signal }
  | .CloseBillingPeriod => some { st with input := closeAllBillsDueToTimeout wall st.input }
  | .TimerFired => some { input := closeAllBillsDueToTimeout wall st.input, timerFired := true }

/-- An event as the loop meets it: the event and the two clock readings taken
while its callback runs. -/
structure Delivery where
  now : Time
  wall : Time
  event : Event
deriving DecidableEq

/-- The loop `for !timerFired { ... selector.Select(ctx) }` of `BillWorkflow` run
over a scripted sequence of events: once `timerFired` is set the loop has been
left and the remaining events are not handled. -/
def BillWorkflow : LoopState → List Delivery → Option LoopState
  | st, [] => some st
  | st, d :: rest =>
    if st.timerFired then some st
    else
      match selectStep d.now d.wall st d.event with
      | none => none
      | some st1 => BillWorkflow st1 rest

/-- The state `StartBillingPeriod` starts the workflow with: no bills, the timer
not fired. -/
def emptyPeriod (workflowID customerID : String) (currency : Currency)
    (billingPeriodDays : Int) (startedAt : Time) : LoopState :=
  { input :=
      { WorkflowID := workflowID
        CustomerID := customerID
        Currency := currency
        BillingPeriodDays := billingPeriodDays
        BillStates := []
        StartedAt := startedAt }
    timerFired := false }

/-- The loop of the get-bill query handler: the first bill with the requested id,
or the error `bill not found`. -/
def getBillLoop : List Bill → String → Except String Bill
  | [], _ => .error "bill not found"
  | b :: rest, billID => if b.ID = billID then .ok b else getBillLoop rest billID

/-- The closure `setGetBillQueryHandler` registers for the get-bill query: its
result, paired with the workflow state it leaves behind. -/
def setGetBillQueryHandler (workflowState : BillWorkflowInput) (req : GetBillRequest) :
    Except String Bill × BillWorkflowInput :=
  (getBillLoop workflowState.BillStates req.BillID, workflowState)

/-- The closure `setListBillsQueryHandler` registers for the list-bills query: the
loop skips a bill whose status differs from the requested one and appends the others
to `filteredBills`; the result (the error is always nil) is paired with the workflow
state it leaves behind. -/
def setListBillsQueryHandler (workflowState : BillWorkflowInput) (req : ListBillsRequest) :
    List Bill × BillWorkflowInput :=
  (workflowState.BillStates.foldl
      (fun filteredBills b =>
        if b.Status ≠ req.Status then filteredBills else filteredBills ++ [b]) [],
    workflowState)

/-- A loop state the workflow can be in: some script of events run from the state
`StartBillingPeriod` starts with ends in it. -/
def Reachable (st : LoopState) : Prop :=
  ∃ (workflowID customerID : String) (currency : Currency) (billingPeriodDays : Int)
    (startedAt : Time) (events : List Delivery),
    BillWorkflow (emptyPeriod workflowID customerID currency billingPeriodDays startedAt) events
      = some st

/-- The bill ids carried by the create-bill signals of a script, in order. -/
def createdIDs (events : List Delivery) : List String :=
  events.filterMap fun d =>
    match d.event with
    | .CreateBill signal => some signal.BillID
    | _ => none

/-- A signed 64-bit value: the integer reduced into the range from -2^63 to 2^63 - 1. -/
def wrap64 (x : Int) : Int :=
  (x + 2 ^ 63) % 2 ^ 64 - 2 ^ 63

/-- The deadline of `BillWorkflow`:
`time.Duration(input.BillingPeriodDays) * 24 * time.Hour`, two 64-bit products. -/
def billingDuration (input : BillWorkflowInput) : Int :=
  wrap64 (wrap64 (wrap64 input.BillingPeriodDays * 24) * Hour)

/-- A run of add-line-item signals, each handled at its own workflow time; a nil
dereference in any of them ends the run with `none`. -/
def handleAddLineItemSignals :
    BillWorkflowInput → List (Time × AddLineItemSignal) → Option BillWorkflowInput
  | workflowState, [] => some workflowState
  | workflowState, (now, signal) :: rest =>
    match handleAddLineItemSignal now workflowState signal with
    | none => none
    | some workflowState1 => handleAddLineItemSignals workflowState1 rest

/-- The ids of the bills of a period, in insertion order. -/
def billIDs (workflowState : BillWorkflowInput) : List String :=
  workflowState.BillStates.map fun b => b.ID

/-- The sum over line items of amount × quantity, as the claims write it. -/
def lineItemsSum (items : List LineItem) : ℚ :=
  (items.map fun item => item.Amount * (item.Quantity : ℚ)).sum

end workflows

namespace bills

open models

/-- Go `func validateAddLineItemRequest(req *models.AddLineItemRequest) error`:
the error message, `none` for nil. -/
def validateAddLineItemRequest (req : AddLineItemRequest) : Option String :=
  if req.Description = "" then some "description is required"
  else if req.Amount < 0 then some "amount must be non-negative"
  else if req.Quantity ≤ 0 then some "quantity must be positive"
  else if !Currency.IsValid req.Currency then
    some ("invalid currency: " ++ req.Currency ++ " (supported: USD, GEL)")
  else none

/-- Go `func validateStartBillingPeriodRequest(req *models.StartBillingPeriodRequest)
error`: the error message, `none` for nil. -/
def validateStartBillingPeriodRequest (req : StartBillingPeriodRequest) : Option String :=
  if req.CustomerID = "" then some "customer_id is required"
  else if req.BillingPeriodDays ≤ 0 then some "billing_period_days must be positive"
  else none

/-- The tail of Go `CloseBillingPeriod`: from the bills the list-bills query returned
for status CLOSED, the loop `finalBillAmountUSD += ConvertCurrencyAmount(bill.Currency,
USD, bill.TotalAmount)` from `0.0`, then the conversion of the sum to GEL. -/
def CloseBillingPeriod (workflowId : String) (finalizedBills : List Bill) :
    CloseBillingPeriodResponse :=
  let finalBillAmountUSD : ℚ :=
    finalizedBills.foldl
      (fun total bill => total + ConvertCurrencyAmount bill.Currency USD bill.TotalAmount) 0
  let finalAmountGEL := ConvertCurrencyAmount USD GEL finalBillAmountUSD
  { WorkflowID := workflowId
    Bills := finalizedBills
    FinalAmountUSD := finalBillAmountUSD
    FinalAmountGEL := finalAmountGEL }

end bills

open models workflows bills

/-! ## Concrete states used by the worked examples -/

/-- A line item with the given id, amount and quantity. -/
def mkItem (id : String) (amount : ℚ) (quantity : Int) : LineItem :=
  { ID := id, Description := "Test", Amount := amount, Quantity := quantity, AddedAt := 0 }

/-- An open bill with the given id, currency, running total and items. -/
def openBill (id : String) (currency : Currency) (total : ℚ) (items : List LineItem) : Bill :=
  { ID := id, Status := StatusOpen, Currency := currency, TotalAmount := total,
    LineItems := items, CreatedAt := 0, ClosedAt := 0, CloseReason := "", WorkflowID := "wf-1" }

/-- A bill closed at instant `1` with reason `first`. -/
def closedBill (id : String) (currency : Currency) (total : ℚ) (items : List LineItem) : Bill :=
  { ID := id, Status := StatusClosed, Currency := currency, TotalAmount := total,
    LineItems := items, CreatedAt := 0, ClosedAt := 1, CloseReason := "first",
    WorkflowID := "wf-1" }

/-- A period of customer `cust-1` started at instant `0` holding the given bills. -/
def periodOf (bills : List Bill) : BillWorkflowInput :=
  { WorkflowID := "wf-1", CustomerID := "cust-1", Currency := USD, BillingPeriodDays := 30,
    BillStates := bills, StartedAt := 0 }

/-- An active loop over a period with one open, empty USD bill `b1`. -/
def activeOneBill : LoopState :=
  { input := periodOf [openBill "b1" USD 0 []], timerFired := false }

/-- The create-bill signal for a second bill `b2`, delivered at instant 6. -/
def createSecondBill : Delivery :=
  { now := 6, wall := 6,
    event := .CreateBill { Currency := USD, WorkflowID := "wf-1", BillID := "b2" } }

/-- The script CreateBill(b1, USD); CloseBill(b1); AddLineItem(b1, amount 100,
quantity 2, USD), each event one instant after the other. -/
def scriptAddAfterClose : List Delivery :=
  [ { now := 1, wall := 1,
      event := .CreateBill { Currency := USD, WorkflowID := "wf-1", BillID := "b1" } },
    { now := 2, wall := 2, event := .CloseBill { Reason := "done", BillID := "b1" } },
    { now := 3, wall := 3,
      event := .AddLineItem { LineItem := mkItem "i1" 100 2, BillID := "b1", Currency := USD } } ]

/-- The state after CreateBill(b1, USD) at instant 1 on the empty period. -/
def afterFirstCreate : LoopState :=
  { input := periodOf [{ openBill "b1" USD 0 [] with CreatedAt := 1 }], timerFired := false }

/-- The create-bill signal for bill `b1`, delivered at the given instant. -/
def createFirstBill (now : Time) : Delivery :=
  { now := now, wall := now,
    event := .CreateBill { Currency := USD, WorkflowID := "wf-1", BillID := "b1" } }

/-- The close-bill signal for bill `b1` with reason `done`. -/
def closeFirstBill : CloseBillSignal :=
  { Reason := "done", BillID := "b1" }

/-- An active loop over a period whose only bill `b1` is Closed with one item. -/
def activeClosedBill : LoopState :=
  { input := periodOf [closedBill "b1" USD 6 [mkItem "i1" 3 2]], timerFired := false }

/-- The state of `activeClosedBill` after AddLineItem(b1, amount 100, quantity 2, USD)
handled at instant 7. -/
def activeClosedBillAfterAdd : LoopState :=
  { input := periodOf [closedBill "b1" USD 106
      [mkItem "i1" 3 2, { mkItem "i2" 100 2 with AddedAt := 7 }]],
    timerFired := false }

/-- The add-line-item signals of the trace example: (100, quantity 1, USD) one hour
and (200, quantity 2, GEL) two hours after the period start, both for bill `b1`. -/
def traceSignals : List (Time × AddLineItemSignal) :=
  [ (Hour, { LineItem := mkItem "i1" 100 1, BillID := "b1", Currency := USD }),
    (2 * Hour, { LineItem := mkItem "i2" 200 2, BillID := "b1", Currency := GEL }) ]

/-- A start request for a period of 106752 days. -/
def longPeriodRequest : StartBillingPeriodRequest :=
  { CustomerID := "cust-1", Currency := USD, BillingPeriodDays := 106752 }

/-- The workflow input `StartBillingPeriod` builds from `longPeriodRequest`. -/
def longPeriodInput : BillWorkflowInput :=
  { WorkflowID := "wf-1", CustomerID := longPeriodRequest.CustomerID,
    Currency := longPeriodRequest.Currency,
    BillingPeriodDays := longPeriodRequest.BillingPeriodDays, BillStates := [], StartedAt := 0 }

/-! ## Shared lemmas -/

theorem foldl_lineItems_acc (items : List LineItem) (acc : ℚ) :
    items.foldl (fun total item => total + item.Amount * (item.Quantity : ℚ)) acc
      = acc + lineItemsSum items := by
  induction items generalizing acc with
  | nil => simp [lineItemsSum]
  | cons x xs ih =>
    simp only [List.foldl_cons, ih]
    simp [lineItemsSum, add_assoc]

theorem CalculateTotal_eq_sum (b : Bill) : b.CalculateTotal = lineItemsSum b.LineItems := by
  simp [Bill.CalculateTotal, foldl_lineItems_acc]

theorem FindBillState_writeBillState (f : Bill → Bill) (hf : ∀ b, (f b).ID = b.ID)
    (bills : List Bill) (billID : String) :
    FindBillState (writeBillState f bills billID) billID
      = (FindBillState bills billID).map f := by
  induction bills with
  | nil => simp [FindBillState, writeBillState]
  | cons b rest ih =>
    by_cases h : b.ID = billID
    · simp [FindBillState, writeBillState, h, hf]
    · simp [FindBillState, writeBillState, h, ih]

theorem writeBillState_length (f : Bill → Bill) (bills : List Bill) (billID : String) :
    (writeBillState f bills billID).length = bills.length := by
  induction bills with
  | nil => simp [writeBillState]
  | cons b rest ih =>
    by_cases h : b.ID = billID <;> simp [writeBillState, h, ih]

theorem Close_ID (b : Bill) (wall : Time) (reason : String) :
    (b.Close wall reason).ID = b.ID := rfl

theorem handleCloseBillSignal_find (wall : Time) (ws : BillWorkflowInput)
    (signal : CloseBillSignal) (b : Bill)
    (hfind : FindBillState ws.BillStates signal.BillID = some b) :
    FindBillState (handleCloseBillSignal wall ws signal).BillStates signal.BillID
      = some (b.Close wall signal.Reason) := by
  unfold handleCloseBillSignal
  rw [hfind]
  simp only
  rw [FindBillState_writeBillState _ (fun x => Close_ID x wall signal.Reason), hfind]
  rfl

theorem handleAddLineItemSignal_find (now : Time) (ws : BillWorkflowInput)
    (signal : AddLineItemSignal) (b : Bill)
    (hfind : FindBillState ws.BillStates signal.BillID = some b) :
    ∃ ws1 : BillWorkflowInput,
      handleAddLineItemSignal now ws signal = some ws1
        ∧ FindBillState ws1.BillStates signal.BillID
          = some
            { b with
              LineItems := b.LineItems ++
                [{ signal.LineItem with
                    AddedAt := now
                    Amount := ConvertCurrencyAmount signal.Currency b.Currency
                      signal.LineItem.Amount * getAccrualFactor ws.StartedAt now }]
              TotalAmount := b.TotalAmount +
                ConvertCurrencyAmount signal.Currency b.Currency signal.LineItem.Amount
                  * getAccrualFactor ws.StartedAt now } := by
  unfold handleAddLineItemSignal
  simp only [hfind]
  refine ⟨_, rfl, ?_⟩
  simp only
  refine (FindBillState_writeBillState _ ?_ _ _).trans ?_
  · intro x
    rfl
  · rw [hfind]
    rfl

theorem GEL_ne_USD : GEL ≠ USD := by decide

theorem convert_GEL_USD (amount : ℚ) : ConvertCurrencyAmount GEL USD amount = amount * (2 / 5) := by
  simp [ConvertCurrencyAmount, GEL_ne_USD]

theorem getAccrualFactor_le (startTime currentTime : Time)
    (h : currentTime ≤ startTime + 24 * Hour) : getAccrualFactor startTime currentTime = 1 := by
  have hc : ¬ (startTime < currentTime + (-1 * 24 * Hour)) := by
    simp only [Hour] at h ⊢
    linarith
  simp only [getAccrualFactor, if_neg hc]

theorem getAccrualFactor_gt (startTime currentTime : Time)
    (h : startTime + 24 * Hour < currentTime) :
    getAccrualFactor startTime currentTime = 5 / 2 := by
  have hc : startTime < currentTime + (-1 * 24 * Hour) := by
    simp only [Hour] at h ⊢
    linarith
  simp only [getAccrualFactor, if_pos hc]

theorem closeAll_status (wall : Time) (input : BillWorkflowInput) :
    ∀ b1 ∈ (closeAllBillsDueToTimeout wall input).BillStates, b1.Status = StatusClosed := by
  intro b1 hb1
  simp only [closeAllBillsDueToTimeout, List.mem_map] at hb1
  obtain ⟨b, _, rfl⟩ := hb1
  by_cases h : b.Status = StatusClosed
  · simp [h]
  · simp only [ne_eq, h, not_false_eq_true, if_true]
    rfl

theorem StatusOpen_ne_StatusClosed : StatusOpen ≠ StatusClosed := by decide

theorem FindBillState_eq_none_iff (bills : List Bill) (billID : String) :
    FindBillState bills billID = none ↔ ∀ b ∈ bills, b.ID ≠ billID := by
  induction bills with
  | nil => simp [FindBillState]
  | cons x xs ih =>
    by_cases h : x.ID = billID
    · simp [FindBillState, h]
    · simp [FindBillState, h, ih]

theorem FindBillState_some_split (bills : List Bill) (billID : String) (b : Bill)
    (h : FindBillState bills billID = some b) :
    ∃ pre post : List Bill,
      bills = pre ++ b :: post ∧ b.ID = billID ∧ ∀ x ∈ pre, x.ID ≠ billID := by
  induction bills with
  | nil => simp [FindBillState] at h
  | cons x xs ih =>
    by_cases hx : x.ID = billID
    · simp only [FindBillState, hx, if_true, Option.some.injEq] at h
      subst h
      exact ⟨[], xs, rfl, hx, by simp⟩
    · simp only [FindBillState, hx, if_false] at h
      obtain ⟨pre, post, h1, h2, h3⟩ := ih h
      refine ⟨x :: pre, post, by simp [h1], h2, ?_⟩
      intro y hy
      rcases List.mem_cons.mp hy with rfl | hy
      · exact hx
      · exact h3 y hy

theorem getBillLoop_eq (bills : List Bill) (billID : String) :
    getBillLoop bills billID
      = match FindBillState bills billID with
        | some b => .ok b
        | none => .error "bill not found" := by
  induction bills with
  | nil => rfl
  | cons x xs ih =>
    by_cases h : x.ID = billID
    · simp [getBillLoop, FindBillState, h]
    · simp [getBillLoop, FindBillState, h, ih]

theorem listLoop_eq (status : String) (bills acc : List Bill) :
    bills.foldl
        (fun filteredBills b =>
          if b.Status ≠ status then filteredBills else filteredBills ++ [b]) acc
      = acc ++ bills.filter (fun b => decide (b.Status = status)) := by
  induction bills generalizing acc with
  | nil => simp
  | cons x xs ih =>
    rw [List.foldl_cons, ih]
    by_cases h : x.Status = status
    · simp [h, List.filter_cons]
    · simp [h, List.filter_cons]

theorem listBills_eq_filter (ws : BillWorkflowInput) (req : ListBillsRequest) :
    (setListBillsQueryHandler ws req).1
      = ws.BillStates.filter (fun b => decide (b.Status = req.Status)) := by
  simp only [setListBillsQueryHandler, listLoop_eq, List.nil_append]

theorem writeBillState_mem (f : Bill → Bill) (bills : List Bill) (billID : String) (x : Bill)
    (hx : x ∈ writeBillState f bills billID) : x ∈ bills ∨ ∃ y ∈ bills, x = f y := by
  induction bills with
  | nil => simp [writeBillState] at hx
  | cons b rest ih =>
    by_cases h : b.ID = billID
    · simp only [writeBillState, h, if_true, List.mem_cons] at hx
      rcases hx with rfl | hx
      · exact Or.inr ⟨b, by simp, rfl⟩
      · exact Or.inl (by simp [hx])
    · simp only [writeBillState, h, if_false, List.mem_cons] at hx
      rcases hx with rfl | hx
      · exact Or.inl (by simp)
      · rcases ih hx with h1 | ⟨y, hy, rfl⟩
        · exact Or.inl (by simp [h1])
        · exact Or.inr ⟨y, by simp [hy], rfl⟩

theorem writeBillState_getElem? (f : Bill → Bill) (bills : List Bill) (billID : String)
    (i : Nat) (b : Bill) (hb : bills[i]? = some b) :
    (writeBillState f bills billID)[i]? = some b
      ∨ (writeBillState f bills billID)[i]? = some (f b) := by
  induction bills generalizing i with
  | nil => simp at hb
  | cons x rest ih =>
    by_cases h : x.ID = billID
    · cases i with
      | zero =>
        simp only [List.getElem?_cons_zero, Option.some.injEq] at hb
        subst hb
        simp [writeBillState, h]
      | succ j =>
        simp only [List.getElem?_cons_succ] at hb
        simp [writeBillState, h, hb]
    · cases i with
      | zero =>
        simp only [List.getElem?_cons_zero, Option.some.injEq] at hb
        subst hb
        simp [writeBillState, h]
      | succ j =>
        simp only [List.getElem?_cons_succ] at hb
        simpa [writeBillState, h] using ih j hb

theorem writeBillState_ids (f : Bill → Bill) (hf : ∀ b, (f b).ID = b.ID) (bills : List Bill)
    (billID : String) :
    (writeBillState f bills billID).map (fun b => b.ID) = bills.map (fun b => b.ID) := by
  induction bills with
  | nil => simp [writeBillState]
  | cons b rest ih =>
    by_cases h : b.ID = billID
    · simp [writeBillState, h, hf]
    · simp [writeBillState, h, ih]

/-- Every event keeps each bill in its slot with its id, and a Closed bill Closed. -/
theorem selectStep_slot (now wall : Time) (st st1 : LoopState) (e : Event)
    (hstep : selectStep now wall st e = some st1) (i : Nat) (b : Bill)
    (hb : st.input.BillStates[i]? = some b) :
    ∃ b1 : Bill, st1.input.BillStates[i]? = some b1 ∧ b1.ID = b.ID
      ∧ (b.Status = StatusClosed → b1.Status = StatusClosed) := by
  cases e with
  | AddLineItem signal =>
    simp only [selectStep] at hstep
    cases hh : handleAddLineItemSignal now st.input signal with
    | none => simp [hh] at hstep
    | some input =>
      simp only [hh, Option.some.injEq] at hstep
      subst hstep
      unfold handleAddLineItemSignal at hh
      cases hf : FindBillState st.input.BillStates signal.BillID with
      | none => simp [hf] at hh
      | some billState =>
        simp only [hf, Option.some.injEq] at hh
        subst hh
        rcases writeBillState_getElem? _ st.input.BillStates signal.BillID i b hb with h | h
        · exact ⟨b, h, rfl, id⟩
        · exact ⟨_, h, rfl, id⟩
  | CloseBill signal =>
    simp only [selectStep, Option.some.injEq] at hstep
    subst hstep
    unfold handleCloseBillSignal
    cases hf : FindBillState st.input.BillStates signal.BillID with
    | none => exact ⟨b, hb, rfl, id⟩
    | some billState =>
      rcases writeBillState_getElem? (fun b => b.Close wall signal.Reason)
        st.input.BillStates signal.BillID i b hb with h | h
      · exact ⟨b, h, rfl, id⟩
      · exact ⟨_, h, rfl, fun _ => rfl⟩
  | CreateBill signal =>
    simp only [selectStep, Option.some.injEq] at hstep
    subst hstep
    refine ⟨b, ?_, rfl, id⟩
    have hlt : i < st.input.BillStates.length := by
      rcases List.getElem?_eq_some.mp hb with ⟨h, _⟩
      exact h
    simp only [handleCreateBillSignal]
    rw [List.getElem?_append_left hlt]
    exact hb
  | CloseBillingPeriod =>
    simp only [selectStep, Option.some.injEq] at hstep
    subst hstep
    refine ⟨if b.Status ≠ StatusClosed then b.Close wall "Billing period timed out" else b,
      ?_, ?_, ?_⟩
    · simp [closeAllBillsDueToTimeout, List.getElem?_map, hb]
    · by_cases h : b.Status = StatusClosed
      · simp [h]
      · simp only [ne_eq, h, not_false_eq_true, if_true]
        rfl
    · intro h
      simp [h]
  | TimerFired =>
    simp only [selectStep, Option.some.injEq] at hstep
    subst hstep
    refine ⟨if b.Status ≠ StatusClosed then b.Close wall "Billing period timed out" else b,
      ?_, ?_, ?_⟩
    · simp [closeAllBillsDueToTimeout, List.getElem?_map, hb]
    · by_cases h : b.Status = StatusClosed
      · simp [h]
      · simp only [ne_eq, h, not_false_eq_true, if_true]
        rfl
    · intro h
      simp [h]

/-- A property of the loop state kept by every event is kept by every script. -/
theorem BillWorkflow_invariant (P : LoopState → Prop)
    (hstep : ∀ (now wall : Time) (st st1 : LoopState) (e : Event),
      P st → selectStep now wall st e = some st1 → P st1)
    (events : List Delivery) (st st1 : LoopState) (hst : P st)
    (hrun : BillWorkflow st events = some st1) : P st1 := by
  induction events generalizing st with
  | nil =>
    simp only [BillWorkflow, Option.some.injEq] at hrun
    subst hrun
    exact hst
  | cons d rest ih =>
    by_cases hf : st.timerFired = true
    · simp only [BillWorkflow, hf, if_true, Option.some.injEq] at hrun
      subst hrun
      exact hst
    · simp only [BillWorkflow, hf] at hrun
      cases hs : selectStep d.now d.wall st d.event with
      | none => simp [hs] at hrun
      | some st2 =>
        simp only [hs] at hrun
        exact ih st2 (hstep d.now d.wall st st2 d.event hst hs) hrun

/-- Every event keeps the statuses within OPEN and CLOSED. -/
theorem selectStep_statusValid (now wall : Time) (st st1 : LoopState) (e : Event)
    (hst : ∀ b ∈ st.input.BillStates, b.Status = StatusOpen ∨ b.Status = StatusClosed)
    (hstep : selectStep now wall st e = some st1) :
    ∀ b ∈ st1.input.BillStates, b.Status = StatusOpen ∨ b.Status = StatusClosed := by
  cases e with
  | AddLineItem signal =>
    simp only [selectStep] at hstep
    cases hh : handleAddLineItemSignal now st.input signal with
    | none => simp [hh] at hstep
    | some input =>
      simp only [hh, Option.some.injEq] at hstep
      subst hstep
      unfold handleAddLineItemSignal at hh
      cases hf : FindBillState st.input.BillStates signal.BillID with
      | none => simp [hf] at hh
      | some billState =>
        simp only [hf, Option.some.injEq] at hh
        subst hh
        intro x hx
        rcases writeBillState_mem _ _ _ x hx with h | ⟨y, hy, rfl⟩
        · exact hst x h
        · exact hst y hy
  | CloseBill signal =>
    simp only [selectStep, Option.some.injEq] at hstep
    subst hstep
    unfold handleCloseBillSignal
    cases hf : FindBillState st.input.BillStates signal.BillID with
    | none => exact hst
    | some billState =>
      intro x hx
      rcases writeBillState_mem _ _ _ x hx with h | ⟨y, _, rfl⟩
      · exact hst x h
      · exact Or.inr rfl
  | CreateBill signal =>
    simp only [selectStep, Option.some.injEq] at hstep
    subst hstep
    intro x hx
    simp only [handleCreateBillSignal, List.mem_append, List.mem_singleton] at hx
    rcases hx with h | rfl
    · exact hst x h
    · exact Or.inl rfl
  | CloseBillingPeriod =>
    simp only [selectStep, Option.some.injEq] at hstep
    subst hstep
    intro x hx
    exact Or.inr (closeAll_status wall st.input x hx)
  | TimerFired =>
    simp only [selectStep, Option.some.injEq] at hstep
    subst hstep
    intro x hx
    exact Or.inr (closeAll_status wall st.input x hx)

/-- In a reachable state every bill's status is OPEN or CLOSED. -/
theorem Reachable_statusValid (st : LoopState) (hreach : Reachable st) :
    ∀ b ∈ st.input.BillStates, b.Status = StatusOpen ∨ b.Status = StatusClosed := by
  obtain ⟨wid, cid, cur, days, start, events, hrun⟩ := hreach
  refine BillWorkflow_invariant
    (fun s => ∀ b ∈ s.input.BillStates, b.Status = StatusOpen ∨ b.Status = StatusClosed)
    (fun now wall s s1 e hs hstep => selectStep_statusValid now wall s s1 e hs hstep)
    events _ st ?_ hrun
  intro b hb
  simp [emptyPeriod] at hb

/-- Every event keeps the ids of the bills and appends the id a create-bill carries. -/
theorem selectStep_ids (now wall : Time) (st st1 : LoopState) (e : Event)
    (hstep : selectStep now wall st e = some st1) :
    billIDs st1.input
      = billIDs st.input ++ createdIDs [{ now := now, wall := wall, event := e }] := by
  cases e with
  | AddLineItem signal =>
    simp only [selectStep] at hstep
    cases hh : handleAddLineItemSignal now st.input signal with
    | none => simp [hh] at hstep
    | some input =>
      simp only [hh, Option.some.injEq] at hstep
      subst hstep
      unfold handleAddLineItemSignal at hh
      cases hf : FindBillState st.input.BillStates signal.BillID with
      | none => simp [hf] at hh
      | some billState =>
        simp only [hf, Option.some.injEq] at hh
        subst hh
        simp only [billIDs, createdIDs, List.filterMap_cons, List.filterMap_nil,
          List.append_nil]
        refine writeBillState_ids _ ?_ _ _
        intro x
        rfl
  | CloseBill signal =>
    simp only [selectStep, Option.some.injEq] at hstep
    subst hstep
    simp only [billIDs, createdIDs, List.filterMap_cons, List.filterMap_nil, List.append_nil]
    unfold handleCloseBillSignal
    cases hf : FindBillState st.input.BillStates signal.BillID with
    | none => rfl
    | some billState =>
      refine writeBillState_ids (fun b => b.Close wall signal.Reason) ?_ _ _
      intro x
      rfl
  | CreateBill signal =>
    simp only [selectStep, Option.some.injEq] at hstep
    subst hstep
    simp [billIDs, createdIDs, handleCreateBillSignal]
  | CloseBillingPeriod =>
    simp only [selectStep, Option.some.injEq] at hstep
    subst hstep
    simp only [billIDs, createdIDs, List.filterMap_cons, List.filterMap_nil, List.append_nil,
      closeAllBillsDueToTimeout, List.map_map]
    apply List.map_congr_left
    intro b _
    by_cases h : b.Status = StatusClosed
    · simp [h]
    · simp only [Function.comp, ne_eq, h, not_false_eq_true, if_true]
      rfl
  | TimerFired =>
    simp only [selectStep, Option.some.injEq] at hstep
    subst hstep
    simp only [billIDs, createdIDs, List.filterMap_cons, List.filterMap_nil, List.append_nil,
      closeAllBillsDueToTimeout, List.map_map]
    apply List.map_congr_left
    intro b _
    by_cases h : b.Status = StatusClosed
    · simp [h]
    · simp only [Function.comp, ne_eq, h, not_false_eq_true, if_true]
      rfl

/-- The ids after a script are the ids before it followed by ids its create-bill
signals carry, in their order. -/
theorem BillWorkflow_ids (events : List Delivery) (st st1 : LoopState)
    (hrun : BillWorkflow st events = some st1) :
    ∃ handled : List String,
      billIDs st1.input = billIDs st.input ++ handled
        ∧ List.Sublist handled (createdIDs events) := by
  induction events generalizing st with
  | nil =>
    simp only [BillWorkflow, Option.some.injEq] at hrun
    subst hrun
    exact ⟨[], by simp, List.nil_sublist _⟩
  | cons d rest ih =>
    by_cases hf : st.timerFired = true
    · simp only [BillWorkflow, hf, if_true, Option.some.injEq] at hrun
      subst hrun
      exact ⟨[], by simp, List.nil_sublist _⟩
    · simp only [BillWorkflow, hf] at hrun
      cases hs : selectStep d.now d.wall st d.event with
      | none => simp [hs] at hrun
      | some st2 =>
        simp only [hs] at hrun
        obtain ⟨handled, h1, h2⟩ := ih st2 hrun
        have h3 := selectStep_ids d.now d.wall st st2 d.event hs
        refine ⟨createdIDs [d] ++ handled, ?_, ?_⟩
        · rw [h1, h3, List.append_assoc]
        · have h4 : createdIDs (d :: rest) = createdIDs [d] ++ createdIDs rest := by
            simp only [createdIDs]
            rw [← List.filterMap_append]
            rfl
          rw [h4]
          exact List.Sublist.append (List.Sublist.refl _) h2

theorem foldl_add_eq_sum {α : Type} (f : α → ℚ) (l : List α) (acc : ℚ) :
    l.foldl (fun total x => total + f x) acc = acc + (l.map f).sum := by
  induction l generalizing acc with
  | nil => simp
  | cons x xs ih =>
    simp only [List.foldl_cons, ih, List.map_cons, List.sum_cons]
    ring

theorem USD_ne_GEL : USD ≠ GEL := by decide

theorem convert_USD_GEL (amount : ℚ) : ConvertCurrencyAmount USD GEL amount = amount * (5 / 2) := by
  simp [ConvertCurrencyAmount, USD_ne_GEL]

theorem handleAddLineItemSignal_StartedAt (now : Time) (ws ws1 : BillWorkflowInput)
    (signal : AddLineItemSignal) (h : handleAddLineItemSignal now ws signal = some ws1) :
    ws1.StartedAt = ws.StartedAt := by
  unfold handleAddLineItemSignal at h
  cases hf : FindBillState ws.BillStates signal.BillID with
  | none => simp [hf] at h
  | some billState =>
    simp only [hf, Option.some.injEq] at h
    subst h
    rfl

theorem lineItemsSum_append_one (items : List LineItem) (item : LineItem) :
    lineItemsSum (items ++ [item])
      = lineItemsSum items + item.Amount * (item.Quantity : ℚ) := by
  simp [lineItemsSum]

/-- A run of add-line-item signals for one existing bill, all handled no later than
24h after the period start, completes and adds converted amount × quantity of each
signal to the sum over the bill's line items. -/
theorem handleAddLineItemSignals_find (billID : String)
    (signals : List (Time × AddLineItemSignal)) (ws : BillWorkflowInput) (b : Bill)
    (hfind : FindBillState ws.BillStates billID = some b)
    (hsignals : ∀ p ∈ signals, p.2.BillID = billID ∧ p.1 ≤ ws.StartedAt + 24 * Hour) :
    ∃ (ws1 : BillWorkflowInput) (b1 : Bill),
      handleAddLineItemSignals ws signals = some ws1
        ∧ FindBillState ws1.BillStates billID = some b1
        ∧ b1.Currency = b.Currency
        ∧ b1.Status = b.Status
        ∧ lineItemsSum b1.LineItems
          = lineItemsSum b.LineItems
            + (signals.map fun p =>
                ConvertCurrencyAmount p.2.Currency b.Currency p.2.LineItem.Amount
                  * (p.2.LineItem.Quantity : ℚ)).sum := by
  induction signals generalizing ws b with
  | nil => exact ⟨ws, b, rfl, hfind, rfl, rfl, by simp⟩
  | cons p rest ih =>
    obtain ⟨now, signal⟩ := p
    have hp := hsignals (now, signal) (by simp)
    have hid : signal.BillID = billID := hp.1
    have hnow : now ≤ ws.StartedAt + 24 * Hour := hp.2
    subst hid
    obtain ⟨ws1, h1, h2⟩ := handleAddLineItemSignal_find now ws signal b hfind
    have hstart := handleAddLineItemSignal_StartedAt now ws ws1 signal h1
    have hrest : ∀ q ∈ rest,
        q.2.BillID = signal.BillID ∧ q.1 ≤ ws1.StartedAt + 24 * Hour := by
      intro q hq
      rw [hstart]
      exact hsignals q (by simp [hq])
    obtain ⟨ws2, b2, h3, h4, h5, h6, h7⟩ := ih ws1 _ h2 hrest
    refine ⟨ws2, b2, ?_, h4, h5, h6, ?_⟩
    · simp only [handleAddLineItemSignals, h1]
      exact h3
    · rw [h7]
      simp only [lineItemsSum_append_one, getAccrualFactor_le _ _ hnow, List.map_cons,
        List.sum_cons, mul_one]
      ring

/-- Every event keeps each bill in its slot, related to the bill it was by any
relation that holds between a bill and itself, its closed form, and its form with
line items appended and another total. -/
theorem selectStep_slot_rel (R : Bill → Bill → Prop) (hrefl : ∀ b, R b b)
    (hclose : ∀ (b : Bill) (wall : Time) (reason : String), R b (b.Close wall reason))
    (hadd : ∀ (b : Bill) (items : List LineItem) (total : ℚ),
      R b { b with LineItems := b.LineItems ++ items, TotalAmount := total })
    (now wall : Time) (st st1 : LoopState) (e : Event)
    (hstep : selectStep now wall st e = some st1) (i : Nat) (b : Bill)
    (hb : st.input.BillStates[i]? = some b) :
    ∃ b1 : Bill, st1.input.BillStates[i]? = some b1 ∧ R b b1 := by
  have hall : ∀ input : BillWorkflowInput, input.BillStates[i]? = some b →
      ∃ b1 : Bill, (closeAllBillsDueToTimeout wall input).BillStates[i]? = some b1
        ∧ R b b1 := by
    intro input hi
    refine ⟨if b.Status ≠ StatusClosed then b.Close wall "Billing period timed out" else b,
      ?_, ?_⟩
    · simp [closeAllBillsDueToTimeout, List.getElem?_map, hi]
    · by_cases h : b.Status = StatusClosed
      · simp only [ne_eq, h, not_true_eq_false, if_false]
        exact hrefl b
      · simp only [ne_eq, h, not_false_eq_true, if_true]
        exact hclose b wall _
  cases e with
  | AddLineItem signal =>
    simp only [selectStep] at hstep
    cases hh : handleAddLineItemSignal now st.input signal with
    | none => simp [hh] at hstep
    | some input =>
      simp only [hh, Option.some.injEq] at hstep
      subst hstep
      unfold handleAddLineItemSignal at hh
      cases hf : FindBillState st.input.BillStates signal.BillID with
      | none => simp [hf] at hh
      | some billState =>
        simp only [hf, Option.some.injEq] at hh
        subst hh
        rcases writeBillState_getElem? _ st.input.BillStates signal.BillID i b hb with h | h
        · exact ⟨b, h, hrefl b⟩
        · exact ⟨_, h, hadd b _ _⟩
  | CloseBill signal =>
    simp only [selectStep, Option.some.injEq] at hstep
    subst hstep
    unfold handleCloseBillSignal
    cases hf : FindBillState st.input.BillStates signal.BillID with
    | none => exact ⟨b, hb, hrefl b⟩
    | some billState =>
      rcases writeBillState_getElem? (fun b => b.Close wall signal.Reason)
        st.input.BillStates signal.BillID i b hb with h | h
      · exact ⟨b, h, hrefl b⟩
      · exact ⟨_, h, hclose b wall signal.Reason⟩
  | CreateBill signal =>
    simp only [selectStep, Option.some.injEq] at hstep
    subst hstep
    refine ⟨b, ?_, hrefl b⟩
    have hlt : i < st.input.BillStates.length := (List.getElem?_eq_some.mp hb).1
    simp only [handleCreateBillSignal]
    rw [List.getElem?_append_left hlt]
    exact hb
  | CloseBillingPeriod =>
    simp only [selectStep, Option.some.injEq] at hstep
    subst hstep
    exact hall st.input hb
  | TimerFired =>
    simp only [selectStep, Option.some.injEq] at hstep
    subst hstep
    exact hall st.input hb

theorem IsValid_iff (status : BillStatus) :
    BillStatus.IsValid status = true ↔ status = StatusOpen ∨ status = StatusClosed := by
  simp [BillStatus.IsValid]

theorem wrap64_of_range (x : Int) (hlo : -9223372036854775808 ≤ x)
    (hhi : x ≤ 9223372036854775807) : wrap64 x = x := by
  unfold wrap64
  have h : (x + 2 ^ 63) % 2 ^ 64 = x + 2 ^ 63 := by
    apply Int.emod_eq_of_lt
    · omega
    · omega
  rw [h]
  omega

/-- Over exact rationals, with the rates 5/2 and 2/5, converting there and back
returns the amount for every pair of codes. -/
theorem ConvertCurrencyAmount_round_trip_exact (a : ℚ) (currency1 currency2 : Currency) :
    ConvertCurrencyAmount currency2 currency1 (ConvertCurrencyAmount currency1 currency2 a)
      = a := by
  by_cases hug : currency1 = USD ∧ currency2 = GEL
  · obtain ⟨rfl, rfl⟩ := hug
    rw [convert_USD_GEL, convert_GEL_USD]
    ring
  · by_cases hgu : currency1 = GEL ∧ currency2 = USD
    · obtain ⟨rfl, rfl⟩ := hgu
      rw [convert_GEL_USD, convert_USD_GEL]
      ring
    · by_cases heq : currency1 = currency2
      · subst heq
        simp [ConvertCurrencyAmount]
      · have hne : ¬ currency2 = currency1 := fun h => heq h.symm
        have hug2 : ¬ (currency2 = USD ∧ currency1 = GEL) := fun h => hgu ⟨h.2, h.1⟩
        have hgu2 : ¬ (currency2 = GEL ∧ currency1 = USD) := fun h => hug ⟨h.2, h.1⟩
        simp only [ConvertCurrencyAmount, if_neg heq, if_neg hug, if_neg hgu, if_neg hne,
          if_neg hug2, if_neg hgu2]

theorem roundHalfEven_sub_le (m : ℚ) : |((roundHalfEven m : Int) : ℚ) - m| ≤ 1 / 2 := by
  have h1 := Int.floor_le m
  have h2 := Int.lt_floor_add_one m
  unfold roundHalfEven
  simp only
  split_ifs with ha hb hc
  · rw [abs_le]
    constructor <;> linarith
  · push_cast
    rw [abs_le]
    constructor <;> linarith
  · have hfrac : m - (⌊m⌋ : ℚ) = 1 / 2 := le_antisymm (not_lt.mp hb) (not_lt.mp ha)
    rw [abs_le]
    constructor <;> linarith
  · have hfrac : m - (⌊m⌋ : ℚ) = 1 / 2 := le_antisymm (not_lt.mp hb) (not_lt.mp ha)
    push_cast
    rw [abs_le]
    constructor <;> linarith

/-- Rounding to float64 changes a value by at most 2^-53 of its magnitude. -/
theorem roundFloat64_error (x : ℚ) : |roundFloat64 x - x| ≤ |x| / 2 ^ 53 := by
  unfold roundFloat64
  split_ifs with h0
  · simp [h0]
  · simp only
    have hx : 0 < |x| := abs_pos.mpr h0
    have hlog : ((2 : ℕ) : ℚ) ^ (Int.log 2 |x|) ≤ |x| := Int.zpow_log_le_self (by norm_num) hx
    generalize Int.log 2 |x| = l at hlog
    have hs : (0 : ℚ) < 2 ^ (l - 52) := zpow_pos (by norm_num) _
    have hsplit : ((2 : ℕ) : ℚ) ^ l = 2 ^ (l - 52) * 2 ^ (52 : ℕ) := by
      rw [← zpow_natCast, ← zpow_add₀ (by norm_num)]
      norm_num
    rw [hsplit] at hlog
    have hr := roundHalfEven_sub_le (x / 2 ^ (l - 52))
    have hrew : (roundHalfEven (x / 2 ^ (l - 52)) : ℚ) * 2 ^ (l - 52) - x
        = ((roundHalfEven (x / 2 ^ (l - 52)) : ℚ) - x / 2 ^ (l - 52)) * 2 ^ (l - 52) := by
      field_simp
    rw [hrew, abs_mul, abs_of_pos hs, le_div_iff₀ (by norm_num)]
    have hmul := mul_le_mul_of_nonneg_right hr hs.le
    norm_num at hlog ⊢
    nlinarith

theorem roundFloat64_abs (x : ℚ) :
    |x| * (1 - 1 / 2 ^ 53) ≤ |roundFloat64 x| ∧ |roundFloat64 x| ≤ |x| * (1 + 1 / 2 ^ 53) := by
  have h := roundFloat64_error x
  have h1 := abs_sub_abs_le_abs_sub (roundFloat64 x) x
  have h2 := abs_sub_abs_le_abs_sub x (roundFloat64 x)
  rw [abs_sub_comm] at h2
  constructor
  · linarith
  · linarith

/-- Two rounded products by rates whose product is 1 + 2^-54 return the amount up to
2^-51 of its magnitude. -/
theorem roundTrip_error (a r1 r2 : ℚ) (hr : |r1| * |r2| = 1 + 1 / 2 ^ 54)
    (hr1 : r1 * r2 = 1 + 1 / 2 ^ 54) :
    |roundFloat64 (roundFloat64 (a * r1) * r2) - a| ≤ |a| / 2 ^ 51 := by
  have e1 := roundFloat64_error (a * r1)
  have e2 := roundFloat64_error (roundFloat64 (a * r1) * r2)
  generalize roundFloat64 (roundFloat64 (a * r1) * r2) = y2 at e2 ⊢
  generalize roundFloat64 (a * r1) = y1 at e1 e2
  rw [abs_mul] at e1 e2
  have hA : 0 ≤ |a| := abs_nonneg a
  have hQ : 0 ≤ |r2| := abs_nonneg r2
  have hy1 : |y1| ≤ |a| * |r1| + |a| * |r1| / 2 ^ 53 := by
    have h := abs_sub_abs_le_abs_sub y1 (a * r1)
    rw [abs_mul] at h
    linarith
  have t2 : |y1 * r2 - a * r1 * r2| ≤ |a| * |r1| / 2 ^ 53 * |r2| := by
    have h : y1 * r2 - a * r1 * r2 = (y1 - a * r1) * r2 := by ring
    rw [h, abs_mul]
    exact mul_le_mul_of_nonneg_right e1 hQ
  have t3 : |a * r1 * r2 - a| = |a| * (1 / 2 ^ 54) := by
    have h : a * r1 * r2 - a = a * (r1 * r2 - 1) := by ring
    rw [h, hr1, abs_mul]
    norm_num
  have t1 : |y2 - y1 * r2| ≤ (|a| * |r1| + |a| * |r1| / 2 ^ 53) * |r2| / 2 ^ 53 := by
    refine e2.trans ?_
    apply div_le_div_of_nonneg_right _ (by norm_num)
    exact mul_le_mul_of_nonneg_right hy1 hQ
  have htri : |y2 - a| ≤ |y2 - y1 * r2| + |y1 * r2 - a * r1 * r2| + |a * r1 * r2 - a| := by
    have h : y2 - a = (y2 - y1 * r2) + (y1 * r2 - a * r1 * r2) + (a * r1 * r2 - a) := by ring
    rw [h]
    exact (abs_add _ _).trans (add_le_add_right (abs_add _ _) _)
  have hPQ : |a| * |r1| * |r2| = |a| * (1 + 1 / 2 ^ 54) := by rw [mul_assoc, hr]
  have s1 : (|a| * |r1| + |a| * |r1| / 2 ^ 53) * |r2| / 2 ^ 53
      = |a| * (1 + 1 / 2 ^ 54) * (1 + 1 / 2 ^ 53) / 2 ^ 53 := by
    rw [← hPQ]
    ring
  have s2 : |a| * |r1| / 2 ^ 53 * |r2| = |a| * (1 + 1 / 2 ^ 54) / 2 ^ 53 := by
    rw [← hPQ]
    ring
  rw [s1] at t1
  rw [s2] at t2
  rw [t3] at htri
  have hfinal : |a| * (1 + 1 / 2 ^ 54) * (1 + 1 / 2 ^ 53) / 2 ^ 53
      + |a| * (1 + 1 / 2 ^ 54) / 2 ^ 53 + |a| * (1 / 2 ^ 54) ≤ |a| / 2 ^ 51 := by
    have h : |a| * (1 + 1 / 2 ^ 54) * (1 + 1 / 2 ^ 53) / 2 ^ 53
      + |a| * (1 + 1 / 2 ^ 54) / 2 ^ 53 + |a| * (1 / 2 ^ 54)
        = |a| * ((1 + 1 / 2 ^ 54) * (1 + 1 / 2 ^ 53) / 2 ^ 53
          + (1 + 1 / 2 ^ 54) / 2 ^ 53 + 1 / 2 ^ 54) := by ring
    have h51 : |a| / 2 ^ 51 = |a| * (1 / 2 ^ 51) := by ring
    rw [h, h51]
    apply mul_le_mul_of_nonneg_left _ hA
    norm_num
  linarith

/-- The float64 constant `2.5` is 5/2. -/
theorem roundFloat64_five_halves : roundFloat64 (5 / 2) = 5 / 2 := by decide!

/-- The float64 constant `0.4` is 3602879701896397 / 2^53. -/
theorem roundFloat64_two_fifths :
    roundFloat64 (2 / 5) = 3602879701896397 / 9007199254740992 := by decide!

/-- A conversion in float64 keeps the magnitude within a factor from 3/10 to 3. -/
theorem ConvertCurrencyAmountFloat64_abs (currency1 currency2 : Currency) (a : ℚ) :
    |a| * (3 / 10) ≤ |ConvertCurrencyAmountFloat64 currency1 currency2 a|
      ∧ |ConvertCurrencyAmountFloat64 currency1 currency2 a| ≤ |a| * 3 := by
  have hA : 0 ≤ |a| := abs_nonneg a
  unfold ConvertCurrencyAmountFloat64 mulFloat64
  split_ifs with h1 h2 h3
  · constructor <;> linarith
  · rw [roundFloat64_five_halves]
    have h := roundFloat64_abs (a * (5 / 2))
    rw [abs_mul, abs_of_pos (by norm_num : (0 : ℚ) < 5 / 2)] at h
    obtain ⟨hlo, hhi⟩ := h
    constructor <;> linarith
  · rw [roundFloat64_two_fifths]
    have h := roundFloat64_abs (a * (3602879701896397 / 9007199254740992))
    rw [abs_mul,
      abs_of_pos (by norm_num : (0 : ℚ) < 3602879701896397 / 9007199254740992)] at h
    obtain ⟨hlo, hhi⟩ := h
    constructor <;> linarith
  · constructor <;> linarith

/-- In float64 converting there and back returns the amount up to 2^-51 of its
magnitude, for every pair of codes. -/
theorem ConvertCurrencyAmountFloat64_round_trip_error (currency1 currency2 : Currency)
    (a : ℚ) :
    |ConvertCurrencyAmountFloat64 currency2 currency1
        (ConvertCurrencyAmountFloat64 currency1 currency2 a) - a| ≤ |a| / 2 ^ 51 := by
  have hA : 0 ≤ |a| / 2 ^ 51 := by positivity
  by_cases hug : currency1 = USD ∧ currency2 = GEL
  · obtain ⟨rfl, rfl⟩ := hug
    simp only [ConvertCurrencyAmountFloat64, mulFloat64, USD_ne_GEL, GEL_ne_USD, if_false,
      true_and, and_self, if_true, and_true, and_false, roundFloat64_five_halves,
      roundFloat64_two_fifths]
    exact roundTrip_error a _ _ (by norm_num [abs_of_pos]) (by norm_num)
  · by_cases hgu : currency1 = GEL ∧ currency2 = USD
    · obtain ⟨rfl, rfl⟩ := hgu
      simp only [ConvertCurrencyAmountFloat64, mulFloat64, USD_ne_GEL, GEL_ne_USD, if_false,
        true_and, and_self, if_true, and_true, and_false, roundFloat64_five_halves,
        roundFloat64_two_fifths]
      exact roundTrip_error a _ _ (by norm_num [abs_of_pos]) (by norm_num)
    · by_cases heq : currency1 = currency2
      · subst heq
        simpa [ConvertCurrencyAmountFloat64] using hA
      · have hne : ¬ currency2 = currency1 := fun h => heq h.symm
        have hug2 : ¬ (currency2 = USD ∧ currency1 = GEL) := fun h => hgu ⟨h.2, h.1⟩
        have hgu2 : ¬ (currency2 = GEL ∧ currency1 = USD) := fun h => hug ⟨h.2, h.1⟩
        simp only [ConvertCurrencyAmountFloat64, if_neg heq, if_neg hug, if_neg hgu,
          if_neg hne, if_neg hug2, if_neg hgu2, sub_self, abs_zero]
        exact hA

/-! ## C1: closing an open bill -/

/-- C1: for every period state and every CloseBill(billId, reason) signal whose
billId resolves (by `FindBillState`) to an Open bill, after `handleCloseBillSignal`
the bill that billId resolves to has status Closed, closeReason equal to reason and
totalAmount equal to the sum over its line items of amount × quantity; it is the
same bill (same id) with the same line items. -/
theorem C1_close_open_bill (wall : Time) (ws : BillWorkflowInput) (signal : CloseBillSignal)
    (b : Bill) (hfind : FindBillState ws.BillStates signal.BillID = some b)
    (hopen : b.Status = StatusOpen) :
    ∃ b1 : Bill,
      FindBillState (handleCloseBillSignal wall ws signal).BillStates signal.BillID = some b1
        ∧ b1.Status = StatusClosed
        ∧ b1.CloseReason = signal.Reason
        ∧ b1.TotalAmount = lineItemsSum b1.LineItems
        ∧ b1.TotalAmount = b1.CalculateTotal
        ∧ b1.LineItems = b.LineItems
        ∧ b1.ID = b.ID
        ∧ b.Status ≠ b1.Status := by
  refine ⟨b.Close wall signal.Reason, handleCloseBillSignal_find wall ws signal b hfind,
    rfl, rfl, ?_, rfl, rfl, rfl, ?_⟩
  · exact CalculateTotal_eq_sum _
  · rw [hopen]
    show StatusOpen ≠ StatusClosed
    decide

/-- C1 at the bill of `TestBill_CalculateTotal`: items (10 × 2) and (5 × 3) close at 35. -/
theorem C1_close_open_bill_witness :
    FindBillState
        (periodOf [openBill "b1" USD 15 [mkItem "i1" 10 2, mkItem "i2" 5 3]]).BillStates "b1"
      = some (openBill "b1" USD 15 [mkItem "i1" 10 2, mkItem "i2" 5 3])
    ∧ lineItemsSum [mkItem "i1" 10 2, mkItem "i2" 5 3] = 35
    ∧ ∃ b1 : Bill,
      FindBillState
          (handleCloseBillSignal 7
            (periodOf [openBill "b1" USD 15 [mkItem "i1" 10 2, mkItem "i2" 5 3]])
            { Reason := "done", BillID := "b1" }).BillStates "b1" = some b1
        ∧ b1.Status = StatusClosed
        ∧ b1.CloseReason = "done"
        ∧ b1.TotalAmount = lineItemsSum b1.LineItems
        ∧ b1.TotalAmount = b1.CalculateTotal
        ∧ b1.LineItems = [mkItem "i1" 10 2, mkItem "i2" 5 3]
        ∧ b1.ID = "b1"
        ∧ StatusOpen ≠ b1.Status :=
  ⟨by decide, by norm_num [lineItemsSum, mkItem],
    C1_close_open_bill 7 (periodOf [openBill "b1" USD 15 [mkItem "i1" 10 2, mkItem "i2" 5 3]])
      { Reason := "done", BillID := "b1" }
      (openBill "b1" USD 15 [mkItem "i1" 10 2, mkItem "i2" 5 3]) (by decide) rfl⟩

/-! ## C2: add-line-item for a bill that does not exist -/

/-- C2: on a period with no bills, the AddLineItem signal for bill `b1` makes
`handleAddLineItemSignal` dereference the nil result of `FindBillState`: the handler
does not complete, where the claim says it completes as a no-op.  The same holds
for every state in which no bill has the signal's id. -/
theorem C2_add_missing_bill_fails :
    handleAddLineItemSignal 7 (periodOf [])
        { LineItem := mkItem "i1" 100 1, BillID := "b1", Currency := USD } = none
    ∧ ∀ (now : Time) (ws : BillWorkflowInput) (signal : AddLineItemSignal),
        FindBillState ws.BillStates signal.BillID = none →
          handleAddLineItemSignal now ws signal = none := by
  refine ⟨by decide, ?_⟩
  intro now ws signal h
  simp [handleAddLineItemSignal, h]

/-! ## C3: closing a bill that is already closed -/

/-- C3: on a period whose bill `b1` was closed at instant 1 with reason `first`, a
second CloseBill(b1, `second`) handled at wall-clock instant 2 rewrites closedAt to 2
and closeReason to `second`, where the claim says both stay as they were; status and
totalAmount are the same as before. -/
theorem C3_reclose_overwrites :
    (handleCloseBillSignal 2 (periodOf [closedBill "b1" USD 6 [mkItem "i1" 3 2]])
        { Reason := "second", BillID := "b1" }).BillStates
      = [{ closedBill "b1" USD 6 [mkItem "i1" 3 2] with ClosedAt := 2, CloseReason := "second" }]
    ∧ (closedBill "b1" USD 6 [mkItem "i1" 3 2]).ClosedAt = 1
    ∧ (closedBill "b1" USD 6 [mkItem "i1" 3 2]).CloseReason = "first" := by
  decide!

/-! ## C4: add-line-item for a closed bill -/

/-- C4: on a period whose bill `b1` is Closed with one item and total 6, the
AddLineItem signal for `b1` (amount 100, quantity 2, USD) is not dropped: the item is
appended as a second line item and totalAmount becomes 106, where the claim says
lineItems and totalAmount stay unchanged. -/
theorem C4_add_to_closed_bill_appends :
    handleAddLineItemSignal 7 (periodOf [closedBill "b1" USD 6 [mkItem "i1" 3 2]])
        { LineItem := mkItem "i2" 100 2, BillID := "b1", Currency := USD }
      = some (periodOf [closedBill "b1" USD 106
          [mkItem "i1" 3 2, { mkItem "i2" 100 2 with AddedAt := 7 }]])
    ∧ (closedBill "b1" USD 6 [mkItem "i1" 3 2]).CanAddLineItems = false := by
  decide!

/-! ## C5: totals of closed bills in reachable states -/

/-- C5: from the empty period the script CreateBill(b1), CloseBill(b1),
AddLineItem(b1, 100 × 2) reaches a state whose only bill is Closed with totalAmount
100 while the sum over its line items of amount × quantity is 200: the invariant of
the claim does not hold in that reachable state. -/
theorem C5_closed_total_broken_after_add :
    ∃ (st : LoopState) (b : Bill),
      BillWorkflow (emptyPeriod "wf-1" "cust-1" USD 30 0) scriptAddAfterClose = some st
        ∧ st.input.BillStates = [b]
        ∧ b.Status = StatusClosed
        ∧ b.TotalAmount = 100
        ∧ lineItemsSum b.LineItems = 200
        ∧ b.TotalAmount ≠ lineItemsSum b.LineItems := by
  refine ⟨⟨periodOf [{ closedBill "b1" USD 100 [{ mkItem "i1" 100 2 with AddedAt := 3 }] with
      CreatedAt := 1, ClosedAt := 2, CloseReason := "done" }], false⟩, _, ?_, rfl, rfl, rfl, ?_, ?_⟩
  · decide!
  · norm_num [lineItemsSum, closedBill, mkItem]
  · norm_num [lineItemsSum, closedBill, mkItem]

/-! ## C6: the stored line item -/

/-- C6: for every AddLineItem(billId, item, currency) signal whose billId resolves
to a bill, the handler completes and the bill's lineItems are the old ones followed
by one item whose amount is ConvertCurrencyAmount(currency, bill.currency,
item.amount) × getAccrualFactor(period.startedAt, now), with the submitted id,
description and quantity and addedAt = now; for amount 250 in GEL on a USD bill no
later than 24h after the period start the stored amount is 100. -/
theorem C6_stored_line_item (now : Time) (ws : BillWorkflowInput) (signal : AddLineItemSignal)
    (b : Bill) (hfind : FindBillState ws.BillStates signal.BillID = some b) :
    ∃ (ws1 : BillWorkflowInput) (b1 : Bill) (item : LineItem),
      handleAddLineItemSignal now ws signal = some ws1
        ∧ FindBillState ws1.BillStates signal.BillID = some b1
        ∧ b1.LineItems = b.LineItems ++ [item]
        ∧ b1.LineItems.getLast? = some item
        ∧ item.Amount
          = ConvertCurrencyAmount signal.Currency b.Currency signal.LineItem.Amount
            * getAccrualFactor ws.StartedAt now
        ∧ item.ID = signal.LineItem.ID
        ∧ item.Description = signal.LineItem.Description
        ∧ item.Quantity = signal.LineItem.Quantity
        ∧ item.AddedAt = now
        ∧ (signal.Currency = GEL → b.Currency = USD → signal.LineItem.Amount = 250 →
            now ≤ ws.StartedAt + 24 * Hour → item.Amount = 100) := by
  obtain ⟨ws1, h1, h2⟩ := handleAddLineItemSignal_find now ws signal b hfind
  refine ⟨ws1, _, _, h1, h2, rfl, by simp, rfl, rfl, rfl, rfl, rfl, ?_⟩
  intro hc hb ha ht
  simp only [hc, hb, ha, getAccrualFactor_le _ _ ht, convert_GEL_USD]
  norm_num

/-- C6 at the second request of `TestAddLineItemToBill`: 250 GEL, quantity 10, one
hour after the period start, on a USD bill, is stored as 100 with quantity 10. -/
theorem C6_stored_line_item_witness :
    FindBillState (periodOf [openBill "b1" USD 100 [mkItem "i1" 100 1]]).BillStates "b1"
      = some (openBill "b1" USD 100 [mkItem "i1" 100 1])
    ∧ ∃ (ws1 : BillWorkflowInput) (b1 : Bill) (item : LineItem),
      handleAddLineItemSignal Hour (periodOf [openBill "b1" USD 100 [mkItem "i1" 100 1]])
          { LineItem := mkItem "i2" 250 10, BillID := "b1", Currency := GEL } = some ws1
        ∧ FindBillState ws1.BillStates "b1" = some b1
        ∧ b1.LineItems = [mkItem "i1" 100 1, item]
        ∧ item.Amount = 100
        ∧ item.ID = "i2"
        ∧ item.Quantity = 10 := by
  refine ⟨by decide, ?_⟩
  obtain ⟨ws1, b1, item, h1, h2, h3, _, _, h6, _, h8, _, h10⟩ :=
    C6_stored_line_item Hour (periodOf [openBill "b1" USD 100 [mkItem "i1" 100 1]])
      { LineItem := mkItem "i2" 250 10, BillID := "b1", Currency := GEL }
      (openBill "b1" USD 100 [mkItem "i1" 100 1]) (by decide)
  exact ⟨ws1, b1, item, h1, h2, h3, h10 rfl rfl rfl (by decide), h6, h8⟩

/-! ## C7: the running total after add-line-item -/

/-- C7: for every AddLineItem signal whose billId resolves to a bill, the handler
completes and the bill's totalAmount becomes oldTotal + storedAmount, where
storedAmount is the converted and accrued amount; the new total is the same
whatever quantity the item carries, and it equals oldTotal + storedAmount ×
quantity only when storedAmount is 0 or quantity is 1. -/
theorem C7_total_grows_by_amount (now : Time) (ws : BillWorkflowInput)
    (signal : AddLineItemSignal) (b : Bill)
    (hfind : FindBillState ws.BillStates signal.BillID = some b) :
    ∃ (ws1 : BillWorkflowInput) (b1 : Bill) (item : LineItem),
      handleAddLineItemSignal now ws signal = some ws1
        ∧ FindBillState ws1.BillStates signal.BillID = some b1
        ∧ b1.LineItems = b.LineItems ++ [item]
        ∧ item.Amount
          = ConvertCurrencyAmount signal.Currency b.Currency signal.LineItem.Amount
            * getAccrualFactor ws.StartedAt now
        ∧ item.Quantity = signal.LineItem.Quantity
        ∧ b1.TotalAmount = b.TotalAmount + item.Amount
        ∧ (∀ q : Int, ∃ (ws2 : BillWorkflowInput) (b2 : Bill),
            handleAddLineItemSignal now ws
                { signal with LineItem := { signal.LineItem with Quantity := q } } = some ws2
              ∧ FindBillState ws2.BillStates signal.BillID = some b2
              ∧ b2.TotalAmount = b1.TotalAmount)
        ∧ (b1.TotalAmount = b.TotalAmount + item.Amount * (item.Quantity : ℚ)
            ↔ item.Amount = 0 ∨ item.Quantity = 1) := by
  obtain ⟨ws1, h1, h2⟩ := handleAddLineItemSignal_find now ws signal b hfind
  refine ⟨ws1, _, _, h1, h2, rfl, rfl, rfl, rfl, ?_, ?_⟩
  · intro q
    obtain ⟨ws2, h3, h4⟩ := handleAddLineItemSignal_find now ws
      { signal with LineItem := { signal.LineItem with Quantity := q } } b hfind
    exact ⟨ws2, _, h3, h4, rfl⟩
  · simp only [add_right_inj]
    constructor
    · intro h
      have h5 := mul_eq_left₀ (a := ConvertCurrencyAmount signal.Currency b.Currency
        signal.LineItem.Amount * getAccrualFactor ws.StartedAt now)
        (b := (signal.LineItem.Quantity : ℚ))
      by_cases h0 : ConvertCurrencyAmount signal.Currency b.Currency
        signal.LineItem.Amount * getAccrualFactor ws.StartedAt now = 0
      · exact Or.inl h0
      · right
        have h6 := (h5 h0).mp h.symm
        exact_mod_cast h6
    · rintro (h | h)
      · rw [h]; simp
      · rw [h]; simp

/-- C7 at a bill with total 100: adding 250 GEL with quantity 10 one hour after the
period start gives total 200 = 100 + 100, not 100 + 100 × 10. -/
theorem C7_total_grows_by_amount_witness :
    FindBillState (periodOf [openBill "b1" USD 100 [mkItem "i1" 100 1]]).BillStates "b1"
      = some (openBill "b1" USD 100 [mkItem "i1" 100 1])
    ∧ ∃ (ws1 : BillWorkflowInput) (b1 : Bill) (item : LineItem),
      handleAddLineItemSignal Hour (periodOf [openBill "b1" USD 100 [mkItem "i1" 100 1]])
          { LineItem := mkItem "i2" 250 10, BillID := "b1", Currency := GEL } = some ws1
        ∧ FindBillState ws1.BillStates "b1" = some b1
        ∧ item.Amount = 100
        ∧ item.Quantity = 10
        ∧ b1.TotalAmount = 200
        ∧ b1.TotalAmount ≠ 100 + item.Amount * (item.Quantity : ℚ) := by
  refine ⟨by decide, ?_⟩
  obtain ⟨ws1, b1, item, h1, h2, _, h4, h5, h6, _, _⟩ :=
    C7_total_grows_by_amount Hour (periodOf [openBill "b1" USD 100 [mkItem "i1" 100 1]])
      { LineItem := mkItem "i2" 250 10, BillID := "b1", Currency := GEL }
      (openBill "b1" USD 100 [mkItem "i1" 100 1]) (by decide)
  have h7 : item.Amount = 100 := by
    rw [h4, getAccrualFactor_le _ _ (by decide)]
    show ConvertCurrencyAmount GEL USD 250 * 1 = 100
    rw [convert_GEL_USD]
    norm_num
  have h8 : item.Quantity = 10 := h5
  refine ⟨ws1, b1, item, h1, h2, h7, h8, ?_, ?_⟩
  · rw [h6, h7]
    norm_num [openBill]
  · rw [h6, h7, h8]
    norm_num [openBill]

/-! ## C8: closing the billing period -/

/-- C8: for every period state, after `closeAllBillsDueToTimeout` every bill has
status Closed and the bills keep their positions; a bill that was not Closed before
has closeReason `Billing period timed out`, closedAt = the clock reading, the same id
and line items, and totalAmount = Σ amount × quantity of its line items; a bill that
was already Closed is unchanged. -/
theorem C8_close_all_bills (wall : Time) (input : BillWorkflowInput) :
    (∀ b1 ∈ (closeAllBillsDueToTimeout wall input).BillStates, b1.Status = StatusClosed)
    ∧ (closeAllBillsDueToTimeout wall input).BillStates.length = input.BillStates.length
    ∧ ∀ (i : Nat) (b : Bill), input.BillStates[i]? = some b →
        ∃ b1 : Bill, (closeAllBillsDueToTimeout wall input).BillStates[i]? = some b1
          ∧ (b.Status ≠ StatusClosed →
              b1.CloseReason = "Billing period timed out"
                ∧ b1.ClosedAt = wall
                ∧ b1.TotalAmount = lineItemsSum b1.LineItems
                ∧ b1.LineItems = b.LineItems
                ∧ b1.ID = b.ID)
          ∧ (b.Status = StatusClosed → b1 = b) := by
  refine ⟨closeAll_status wall input, ?_, ?_⟩
  · simp [closeAllBillsDueToTimeout]
  · intro i b hb
    refine ⟨if b.Status ≠ StatusClosed then b.Close wall "Billing period timed out" else b,
      ?_, ?_, ?_⟩
    · simp [closeAllBillsDueToTimeout, List.getElem?_map, hb]
    · intro h
      rw [if_pos h]
      exact ⟨rfl, rfl, CalculateTotal_eq_sum _, rfl, rfl⟩
    · intro h
      simp [h]

/-- C8 at the period of the end-to-end test: one USD bill holding one item (100,
quantity 1) ends Closed with total 100 and reason `Billing period timed out`. -/
theorem C8_close_all_bills_witness :
    (∀ b1 ∈ (closeAllBillsDueToTimeout 9
        (periodOf [openBill "b1" USD 100 [mkItem "i1" 100 1]])).BillStates,
      b1.Status = StatusClosed)
    ∧ (closeAllBillsDueToTimeout 9
        (periodOf [openBill "b1" USD 100 [mkItem "i1" 100 1]])).BillStates
      = [{ closedBill "b1" USD 100 [mkItem "i1" 100 1] with
            ClosedAt := 9, CloseReason := "Billing period timed out" }] :=
  ⟨(C8_close_all_bills 9 (periodOf [openBill "b1" USD 100 [mkItem "i1" 100 1]])).1, by decide!⟩

/-! ## C9: the close-billing-period event and the loop -/

/-- C9 as stated fails: from an active loop with one open bill, the step for
CloseBillingPeriod leaves `timerFired` false while the step for TimerFired sets it,
so the two resulting states differ; a CreateBill delivered after CloseBillingPeriod
is handled and the period then has two bills, while after TimerFired it is not
handled and the period keeps one bill. -/
theorem C9_close_period_leaves_loop_running :
    (selectStep 5 5 activeOneBill .CloseBillingPeriod).map (fun st => st.timerFired)
      = some false
    ∧ (selectStep 5 5 activeOneBill .TimerFired).map (fun st => st.timerFired) = some true
    ∧ selectStep 5 5 activeOneBill .CloseBillingPeriod
      ≠ selectStep 5 5 activeOneBill .TimerFired
    ∧ (BillWorkflow activeOneBill
        [{ now := 5, wall := 5, event := .CloseBillingPeriod }, createSecondBill]).map
          (fun st => st.input.BillStates.map fun b => (b.ID, b.Status))
      = some [("b1", StatusClosed), ("b2", StatusOpen)]
    ∧ (BillWorkflow activeOneBill
        [{ now := 5, wall := 5, event := .TimerFired }, createSecondBill]).map
          (fun st => st.input.BillStates.map fun b => (b.ID, b.Status))
      = some [("b1", StatusClosed)] := by
  decide!

/-- C9, amended: in an active loop, a CloseBillingPeriod event and a TimerFired
event leave the same bills, all of them Closed; after TimerFired the loop is left
and none of the events that follow is handled, while after CloseBillingPeriod the
loop is still active and goes on with the events that follow. -/
theorem C9_close_period_amended (st : LoopState) (now wall : Time) (rest : List Delivery)
    (hactive : st.timerFired = false) :
    BillWorkflow st ({ now := now, wall := wall, event := .TimerFired } :: rest)
      = some { input := closeAllBillsDueToTimeout wall st.input, timerFired := true }
    ∧ BillWorkflow st ({ now := now, wall := wall, event := .CloseBillingPeriod } :: rest)
      = BillWorkflow { input := closeAllBillsDueToTimeout wall st.input, timerFired := false }
          rest
    ∧ BillWorkflow st [{ now := now, wall := wall, event := .CloseBillingPeriod }]
      = some { input := closeAllBillsDueToTimeout wall st.input, timerFired := false }
    ∧ (∀ b ∈ (closeAllBillsDueToTimeout wall st.input).BillStates, b.Status = StatusClosed)
    ∧ ∀ (d : Delivery) (signal : CreateBillSignal), d.event = .CreateBill signal →
        BillWorkflow st [{ now := now, wall := wall, event := .CloseBillingPeriod }, d]
          = some
            { input := handleCreateBillSignal d.now (closeAllBillsDueToTimeout wall st.input)
                signal
              timerFired := false } := by
  obtain ⟨input, fired⟩ := st
  simp only at hactive
  subst hactive
  refine ⟨?_, ?_, ?_, closeAll_status wall input, ?_⟩
  · cases rest <;> simp [BillWorkflow, selectStep]
  · simp [BillWorkflow, selectStep]
  · simp [BillWorkflow, selectStep]
  · intro d signal hd
    simp [BillWorkflow, selectStep, hd]

/-- C9, amended, at an active loop with one open bill: CloseBillingPeriod followed by
CreateBill(b2) ends with the loop still active and two bills. -/
theorem C9_close_period_amended_witness :
    activeOneBill.timerFired = false
    ∧ BillWorkflow activeOneBill
        [{ now := 5, wall := 5, event := .CloseBillingPeriod }, createSecondBill]
      = some
        { input := handleCreateBillSignal 6
            (closeAllBillsDueToTimeout 5 activeOneBill.input)
            { Currency := USD, WorkflowID := "wf-1", BillID := "b2" }
          timerFired := false } :=
  ⟨rfl, (C9_close_period_amended activeOneBill 5 5 [] rfl).2.2.2.2 createSecondBill
    { Currency := USD, WorkflowID := "wf-1", BillID := "b2" } rfl⟩

/-! ## C10: the accrual factor -/

/-- C10 as stated fails: it is not the case that for every periodStart and eventTime
the factor is 1 when eventTime < periodStart + 24h and 2.5 otherwise; at eventTime =
periodStart + 24h exactly the source returns 1. -/
theorem C10_strict_boundary_fails :
    ¬ ∀ periodStart eventTime : Time,
        getAccrualFactor periodStart eventTime
          = if eventTime < periodStart + 24 * Hour then 1 else 5 / 2 := by
  intro h
  have h1 := h 0 (24 * Hour)
  rw [getAccrualFactor_le 0 (24 * Hour) (by decide)] at h1
  rw [if_neg (by decide)] at h1
  norm_num at h1

/-- C10, amended: for every periodStart and eventTime, `getAccrualFactor` returns 1
if eventTime ≤ periodStart + 24h and 2.5 otherwise. -/
theorem C10_accrual_factor_amended (periodStart eventTime : Time) :
    getAccrualFactor periodStart eventTime
      = if eventTime ≤ periodStart + 24 * Hour then 1 else 5 / 2 := by
  by_cases h : eventTime ≤ periodStart + 24 * Hour
  · rw [if_pos h, getAccrualFactor_le _ _ h]
  · rw [if_neg h, getAccrualFactor_gt _ _ (not_le.mp h)]

/-! ## C11: the accrual factor by elapsed time -/

/-- C11: for every instant T and elapsed duration d, `getAccrualFactor T (T + d)` is
1 when d ≤ 24h and 2.5 when d > 24h, and never any other value; in particular it is 1
at exactly 24h, at 23h59m and at d = 0, and 2.5 at 24h + 1ms and at 25h. -/
theorem C11_accrual_by_elapsed (T : Time) (d : Int) :
    (d ≤ 24 * Hour → getAccrualFactor T (T + d) = 1)
    ∧ (24 * Hour < d → getAccrualFactor T (T + d) = 5 / 2)
    ∧ (getAccrualFactor T (T + d) = 1 ∨ getAccrualFactor T (T + d) = 5 / 2)
    ∧ getAccrualFactor T (T + 24 * Hour) = 1
    ∧ getAccrualFactor T (T + (23 * Hour + 59 * Minute)) = 1
    ∧ getAccrualFactor T (T + 0) = 1
    ∧ getAccrualFactor T (T + (24 * Hour + Millisecond)) = 5 / 2
    ∧ getAccrualFactor T (T + 25 * Hour) = 5 / 2 := by
  have hle : ∀ e : Int, e ≤ 24 * Hour → getAccrualFactor T (T + e) = 1 := by
    intro e he
    apply getAccrualFactor_le
    linarith
  have hgt : ∀ e : Int, 24 * Hour < e → getAccrualFactor T (T + e) = 5 / 2 := by
    intro e he
    apply getAccrualFactor_gt
    linarith
  refine ⟨hle d, hgt d, ?_, hle _ le_rfl, hle _ (by decide), hle _ (by decide),
    hgt _ (by decide), hgt _ (by decide)⟩
  rcases le_or_lt d (24 * Hour) with h | h
  · exact Or.inl (hle d h)
  · exact Or.inr (hgt d h)

/-- C11 at the start instant of the workflow tests' clock taken as 0, shifted by
1000 ns: exactly 24h elapsed gives 1, one nanosecond more gives 2.5. -/
theorem C11_accrual_by_elapsed_witness :
    getAccrualFactor 1000 (1000 + 24 * Hour) = 1
    ∧ getAccrualFactor 1000 (1000 + (24 * Hour + 1)) = 5 / 2 :=
  ⟨(C11_accrual_by_elapsed 1000 (24 * Hour)).1 (by decide),
    (C11_accrual_by_elapsed 1000 (24 * Hour + 1)).2.1 (by decide)⟩

/-! ## C12: currency conversion -/

/-- C12: for every pair of currency codes and every amount a,
`ConvertCurrencyAmount from to a` is a if from = to, a × 2.5 for USD → GEL, a × 0.4
for GEL → USD, and a for every other pair; it is a total function (no error). At
(USD, GEL, 100) it is 250, at (GEL, USD, 100) it is 40, at (EUR, JPY, 10) it is 10. -/
theorem C12_convert_currency (currency1 currency2 : Currency) (a : ℚ) :
    (currency1 = currency2 → ConvertCurrencyAmount currency1 currency2 a = a)
    ∧ (currency1 = USD → currency2 = GEL →
        ConvertCurrencyAmount currency1 currency2 a = a * (5 / 2))
    ∧ (currency1 = GEL → currency2 = USD →
        ConvertCurrencyAmount currency1 currency2 a = a * (2 / 5))
    ∧ (currency1 ≠ currency2 → ¬ (currency1 = USD ∧ currency2 = GEL) →
        ¬ (currency1 = GEL ∧ currency2 = USD) →
        ConvertCurrencyAmount currency1 currency2 a = a)
    ∧ ConvertCurrencyAmount USD GEL 100 = 250
    ∧ ConvertCurrencyAmount GEL USD 100 = 40
    ∧ ConvertCurrencyAmount "EUR" "JPY" 10 = 10
    ∧ ConvertCurrencyAmount "EUR" "EUR" 100 = 100 := by
  refine ⟨?_, ?_, ?_, ?_, ?_, ?_, ?_, ?_⟩
  · intro h
    simp [ConvertCurrencyAmount, h]
  · intro h1 h2
    subst h1 h2
    simp [ConvertCurrencyAmount, GEL_ne_USD.symm]
  · intro h1 h2
    subst h1 h2
    exact convert_GEL_USD a
  · intro h1 h2 h3
    simp only [ConvertCurrencyAmount, if_neg h1, if_neg h2, if_neg h3]
  · decide!
  · decide!
  · decide!
  · decide!

/-- C12 at the amounts of `TestConvertCurrencyAmount`: 10 USD is 25 GEL, 10 GEL is
4 USD, and 10 stays 10 within USD. -/
theorem C12_convert_currency_witness :
    ConvertCurrencyAmount USD GEL 10 = 25
    ∧ ConvertCurrencyAmount GEL USD 10 = 4
    ∧ ConvertCurrencyAmount USD USD 10 = 10 := by
  refine ⟨?_, ?_, (C12_convert_currency USD USD 10).1 rfl⟩
  · rw [(C12_convert_currency USD GEL 10).2.1 rfl rfl]
    norm_num
  · rw [(C12_convert_currency GEL USD 10).2.2.1 rfl rfl]
    norm_num

/-! ## C13: the get-bill query -/

/-- C13: for every period state and bill id, the GetBill query returns a bill iff
some bill of the period has that id; the bill it returns is the one `FindBillState`
returns, the earliest-inserted bill with that id (no bill before it has the id);
when no bill has the id it returns the error `bill not found`; the period state is
left unchanged. -/
theorem C13_get_bill_query (ws : BillWorkflowInput) (req : GetBillRequest) :
    (setGetBillQueryHandler ws req).2 = ws
    ∧ ((∃ b, (setGetBillQueryHandler ws req).1 = .ok b)
        ↔ ∃ b ∈ ws.BillStates, b.ID = req.BillID)
    ∧ (∀ b, (setGetBillQueryHandler ws req).1 = .ok b
        ↔ FindBillState ws.BillStates req.BillID = some b)
    ∧ (∀ b, (setGetBillQueryHandler ws req).1 = .ok b →
        ∃ pre post : List Bill,
          ws.BillStates = pre ++ b :: post ∧ b.ID = req.BillID
            ∧ ∀ x ∈ pre, x.ID ≠ req.BillID)
    ∧ ((¬ ∃ b ∈ ws.BillStates, b.ID = req.BillID) →
        (setGetBillQueryHandler ws req).1 = .error "bill not found") := by
  have hres : ∀ b, (setGetBillQueryHandler ws req).1 = .ok b
      ↔ FindBillState ws.BillStates req.BillID = some b := by
    intro b
    simp only [setGetBillQueryHandler, getBillLoop_eq]
    cases hf : FindBillState ws.BillStates req.BillID <;> simp
  refine ⟨rfl, ?_, hres, ?_, ?_⟩
  · constructor
    · rintro ⟨b, hb⟩
      obtain ⟨pre, post, h1, h2, _⟩ := FindBillState_some_split _ _ _ ((hres b).mp hb)
      exact ⟨b, by simp [h1], h2⟩
    · rintro ⟨b, hb, hid⟩
      cases hf : FindBillState ws.BillStates req.BillID with
      | none => exact absurd hid ((FindBillState_eq_none_iff _ _).mp hf b hb)
      | some b1 => exact ⟨b1, (hres b1).mpr hf⟩
  · intro b hb
    exact FindBillState_some_split _ _ _ ((hres b).mp hb)
  · intro hno
    have hf : FindBillState ws.BillStates req.BillID = none := by
      rw [FindBillState_eq_none_iff]
      intro b hb hid
      exact hno ⟨b, hb, hid⟩
    simp [setGetBillQueryHandler, getBillLoop_eq, hf]

/-- C13 at the bills of `TestFindBillState`: id `2` is found, id `3` is not. -/
theorem C13_get_bill_query_witness :
    (setGetBillQueryHandler (periodOf [openBill "1" USD 0 [], openBill "2" USD 0 []])
        { CustomerID := "cust-1", BillID := "2" }).1 = .ok (openBill "2" USD 0 [])
    ∧ (setGetBillQueryHandler (periodOf [openBill "1" USD 0 [], openBill "2" USD 0 []])
        { CustomerID := "cust-1", BillID := "3" }).1 = .error "bill not found" :=
  ⟨((C13_get_bill_query (periodOf [openBill "1" USD 0 [], openBill "2" USD 0 []])
      { CustomerID := "cust-1", BillID := "2" }).2.2.1 (openBill "2" USD 0 [])).mpr
      (by decide),
    (C13_get_bill_query (periodOf [openBill "1" USD 0 [], openBill "2" USD 0 []])
      { CustomerID := "cust-1", BillID := "3" }).2.2.2.2 (by decide)⟩

/-! ## C14: the list-bills query -/

/-- C14: for every period state and status value s, the ListBills query returns
`filter (status = s)` of the period's bills: a subsequence in insertion order holding
exactly the bills whose status equals s; the period state is left unchanged. -/
theorem C14_list_bills_query (ws : BillWorkflowInput) (req : ListBillsRequest) :
    (setListBillsQueryHandler ws req).1
      = ws.BillStates.filter (fun b => decide (b.Status = req.Status))
    ∧ List.Sublist (setListBillsQueryHandler ws req).1 ws.BillStates
    ∧ (∀ b, b ∈ (setListBillsQueryHandler ws req).1
        ↔ b ∈ ws.BillStates ∧ b.Status = req.Status)
    ∧ (setListBillsQueryHandler ws req).2 = ws := by
  refine ⟨listBills_eq_filter ws req, ?_, ?_, rfl⟩
  · rw [listBills_eq_filter]
    exact List.filter_sublist _
  · intro b
    rw [listBills_eq_filter]
    simp [List.mem_filter]

/-! ## C15: listing after closing the first bill -/

/-- C15: for every period with at least one bill in which all bills are Open
(whether or not the ids are pairwise distinct), after CloseBill on the first-created
bill ListBills(CLOSED) returns exactly that one bill, closed, and ListBills(OPEN)
returns all remaining bills in their original order. -/
theorem C15_close_first_then_list (wall : Time) (ws : BillWorkflowInput) (b : Bill)
    (rest : List Bill) (reason : String) (hbills : ws.BillStates = b :: rest)
    (hopen : ∀ x ∈ ws.BillStates, x.Status = StatusOpen) :
    (setListBillsQueryHandler
        (handleCloseBillSignal wall ws { Reason := reason, BillID := b.ID })
        { Status := StatusClosed }).1 = [b.Close wall reason]
    ∧ (setListBillsQueryHandler
        (handleCloseBillSignal wall ws { Reason := reason, BillID := b.ID })
        { Status := StatusOpen }).1 = rest
    ∧ (b.Close wall reason).ID = b.ID
    ∧ (b.Close wall reason).Status = StatusClosed := by
  have hstate : (handleCloseBillSignal wall ws { Reason := reason, BillID := b.ID }).BillStates
      = b.Close wall reason :: rest := by
    simp [handleCloseBillSignal, hbills, FindBillState, writeBillState]
  have hrest : ∀ x ∈ rest, x.Status = StatusOpen := by
    intro x hx
    exact hopen x (by simp [hbills, hx])
  have hclosed : (b.Close wall reason).Status = StatusClosed := rfl
  refine ⟨?_, ?_, rfl, rfl⟩
  · rw [listBills_eq_filter, hstate]
    simp only [List.filter_cons, hclosed, decide_True, if_true, List.cons.injEq, true_and]
    rw [List.filter_eq_nil_iff]
    intro x hx
    simp [hrest x hx, StatusOpen_ne_StatusClosed]
  · rw [listBills_eq_filter, hstate]
    rw [List.filter_cons_of_neg (by simp [hclosed, StatusOpen_ne_StatusClosed.symm])]
    rw [List.filter_eq_self]
    intro x hx
    simp [hrest x hx]

/-- C15 at a period with three open bills b1, b2, b3: after closing b1 the closed
list holds b1 alone and the open list is b2, b3. -/
theorem C15_close_first_then_list_witness :
    (setListBillsQueryHandler
        (handleCloseBillSignal 7
          (periodOf [openBill "b1" USD 0 [], openBill "b2" USD 0 [], openBill "b3" GEL 0 []])
          { Reason := "done", BillID := "b1" })
        { Status := StatusClosed }).1 = [(openBill "b1" USD 0 []).Close 7 "done"]
    ∧ (setListBillsQueryHandler
        (handleCloseBillSignal 7
          (periodOf [openBill "b1" USD 0 [], openBill "b2" USD 0 [], openBill "b3" GEL 0 []])
          { Reason := "done", BillID := "b1" })
        { Status := StatusOpen }).1 = [openBill "b2" USD 0 [], openBill "b3" GEL 0 []] :=
  ⟨(C15_close_first_then_list 7
      (periodOf [openBill "b1" USD 0 [], openBill "b2" USD 0 [], openBill "b3" GEL 0 []])
      (openBill "b1" USD 0 []) [openBill "b2" USD 0 [], openBill "b3" GEL 0 []] "done" rfl
      (by decide)).1,
    (C15_close_first_then_list 7
      (periodOf [openBill "b1" USD 0 [], openBill "b2" USD 0 [], openBill "b3" GEL 0 []])
      (openBill "b1" USD 0 []) [openBill "b2" USD 0 [], openBill "b3" GEL 0 []] "done" rfl
      (by decide)).2.1⟩

/-! ## C16: listing by a status that is neither OPEN nor CLOSED -/

/-- C16: for every period state reachable from an empty period and every status
value other than `OPEN` and `CLOSED` (the empty string included), the ListBills query
returns the empty sequence. -/
theorem C16_unknown_status_lists_nothing (st : LoopState) (hreach : Reachable st)
    (status : String) (hopen : status ≠ "OPEN") (hclosed : status ≠ "CLOSED") :
    (setListBillsQueryHandler st.input { Status := status }).1 = [] := by
  rw [listBills_eq_filter, List.filter_eq_nil_iff]
  intro b hb
  rcases Reachable_statusValid st hreach b hb with h | h
  · simp only [h, StatusOpen, decide_eq_true_eq]
    exact fun h1 => hopen h1.symm
  · simp only [h, StatusClosed, decide_eq_true_eq]
    exact fun h1 => hclosed h1.symm

/-- C16 at the state reached by one CreateBill(b1): listing by the empty status
returns nothing. -/
theorem C16_unknown_status_lists_nothing_witness :
    Reachable afterFirstCreate
    ∧ (setListBillsQueryHandler afterFirstCreate.input { Status := "" }).1 = []
    ∧ (setListBillsQueryHandler afterFirstCreate.input { Status := StatusOpen }).1
      = afterFirstCreate.input.BillStates :=
  ⟨⟨"wf-1", "cust-1", USD, 30, 0, [createFirstBill 1], by decide!⟩,
    C16_unknown_status_lists_nothing afterFirstCreate
      ⟨"wf-1", "cust-1", USD, 30, 0, [createFirstBill 1], by decide!⟩ "" (by decide)
      (by decide),
    by decide!⟩

/-! ## C17: creating a bill -/

/-- C17: for every period state and every CreateBill(billId, currency) signal,
`handleCreateBillSignal` yields the old bill sequence followed by exactly one new
bill with the given id and currency, status Open, totalAmount 0, empty lineItems and
createdAt = now; every previously existing bill is unchanged in its slot. No
precondition on billId is checked, so this holds also when the id already exists. -/
theorem C17_create_bill_appends (now : Time) (ws : BillWorkflowInput)
    (signal : CreateBillSignal) :
    ∃ newBill : Bill,
      (handleCreateBillSignal now ws signal).BillStates = ws.BillStates ++ [newBill]
        ∧ newBill.ID = signal.BillID
        ∧ newBill.Currency = signal.Currency
        ∧ newBill.Status = StatusOpen
        ∧ newBill.TotalAmount = 0
        ∧ newBill.LineItems = []
        ∧ newBill.CreatedAt = now
        ∧ (handleCreateBillSignal now ws signal).BillStates.length
          = ws.BillStates.length + 1
        ∧ ∀ (i : Nat) (b : Bill), ws.BillStates[i]? = some b →
            (handleCreateBillSignal now ws signal).BillStates[i]? = some b := by
  refine ⟨_, rfl, rfl, rfl, rfl, rfl, rfl, rfl, ?_, ?_⟩
  · simp [handleCreateBillSignal]
  · intro i b hb
    have hlt : i < ws.BillStates.length := (List.getElem?_eq_some.mp hb).1
    simp only [handleCreateBillSignal]
    rw [List.getElem?_append_left hlt]
    exact hb

/-- C17 at a period that already holds a bill `b1`: CreateBill(b1) keeps the old
bill in slot 0 and the period then has two bills with id `b1`. -/
theorem C17_create_bill_appends_witness :
    (handleCreateBillSignal 6 (periodOf [openBill "b1" USD 5 [mkItem "i1" 5 1]])
        { Currency := GEL, WorkflowID := "wf-1", BillID := "b1" }).BillStates[0]?
      = some (openBill "b1" USD 5 [mkItem "i1" 5 1])
    ∧ billIDs (handleCreateBillSignal 6 (periodOf [openBill "b1" USD 5 [mkItem "i1" 5 1]])
        { Currency := GEL, WorkflowID := "wf-1", BillID := "b1" }) = ["b1", "b1"] := by
  obtain ⟨newBill, _, _, _, _, _, _, _, _, hslot⟩ :=
    C17_create_bill_appends 6 (periodOf [openBill "b1" USD 5 [mkItem "i1" 5 1]])
      { Currency := GEL, WorkflowID := "wf-1", BillID := "b1" }
  exact ⟨hslot 0 _ rfl, by decide⟩

/-! ## C18: uniqueness of bill ids -/

/-- C18 as stated fails: from the empty period the script CreateBill(b1),
CreateBill(b1) reaches a state holding two bills with the id `b1`, so the bill ids of
a reachable state need not be pairwise distinct. -/
theorem C18_duplicate_ids_reachable :
    ∃ st : LoopState,
      BillWorkflow (emptyPeriod "wf-1" "cust-1" USD 30 0)
          [createFirstBill 1, createFirstBill 2] = some st
        ∧ Reachable st
        ∧ billIDs st.input = ["b1", "b1"]
        ∧ ¬ (billIDs st.input).Nodup := by
  have hrun : BillWorkflow (emptyPeriod "wf-1" "cust-1" USD 30 0)
      [createFirstBill 1, createFirstBill 2]
      = some ⟨periodOf [{ openBill "b1" USD 0 [] with CreatedAt := 1 },
          { openBill "b1" USD 0 [] with CreatedAt := 2 }], false⟩ := by
    decide!
  exact ⟨_, hrun, ⟨_, _, _, _, _, _, hrun⟩, by decide, by decide⟩

/-- C18, amended: in every period state reached from an empty period by a sequence
of events whose CreateBill signals carry pairwise distinct bill ids, the bill ids
are pairwise distinct. -/
theorem C18_distinct_ids_amended (workflowID customerID : String) (currency : Currency)
    (billingPeriodDays : Int) (startedAt : Time) (events : List Delivery) (st : LoopState)
    (hrun : BillWorkflow
      (emptyPeriod workflowID customerID currency billingPeriodDays startedAt) events
        = some st)
    (hdistinct : (createdIDs events).Nodup) :
    (billIDs st.input).Nodup := by
  obtain ⟨handled, h1, h2⟩ := BillWorkflow_ids events _ st hrun
  have h3 : billIDs st.input = handled := by
    rw [h1]
    simp [billIDs, emptyPeriod]
  rw [h3]
  exact List.Nodup.sublist h2 hdistinct

/-- C18, amended, at the script CreateBill(b1), CreateBill(b2): the reached state
holds the ids b1, b2. -/
theorem C18_distinct_ids_amended_witness :
    (createdIDs [createFirstBill 1, createSecondBill]).Nodup
    ∧ (billIDs (handleCreateBillSignal 6 afterFirstCreate.input
        { Currency := USD, WorkflowID := "wf-1", BillID := "b2" })).Nodup :=
  ⟨by decide,
    C18_distinct_ids_amended "wf-1" "cust-1" USD 30 0 [createFirstBill 1, createSecondBill]
      { input := handleCreateBillSignal 6 afterFirstCreate.input
          { Currency := USD, WorkflowID := "wf-1", BillID := "b2" }
        timerFired := false }
      (by decide!) (by decide)⟩

/-! ## C19: status is monotonic -/

/-- C19: for every event the loop handles (CreateBill, AddLineItem on an existing
bill, CloseBill, CloseBillingPeriod, timer) and every bill that is Closed before the
event, the bill in the same slot after the event has the same id and is still
Closed; no event moves a bill from Closed to Open. -/
theorem C19_status_monotonic (now wall : Time) (st st1 : LoopState) (e : Event)
    (hstep : selectStep now wall st e = some st1) (i : Nat) (b : Bill)
    (hb : st.input.BillStates[i]? = some b) (hclosed : b.Status = StatusClosed) :
    ∃ b1 : Bill, st1.input.BillStates[i]? = some b1 ∧ b1.ID = b.ID
      ∧ b1.Status = StatusClosed ∧ b1.Status ≠ StatusOpen := by
  obtain ⟨b1, h1, h2, h3⟩ := selectStep_slot now wall st st1 e hstep i b hb
  refine ⟨b1, h1, h2, h3 hclosed, ?_⟩
  rw [h3 hclosed]
  exact StatusOpen_ne_StatusClosed.symm

/-- C19 at a Closed bill that receives an AddLineItem signal: the item is appended
and the bill is still Closed. -/
theorem C19_status_monotonic_witness :
    selectStep 7 7 activeClosedBill
        (.AddLineItem { LineItem := mkItem "i2" 100 2, BillID := "b1", Currency := USD })
      = some activeClosedBillAfterAdd
    ∧ ∃ b1 : Bill, activeClosedBillAfterAdd.input.BillStates[0]? = some b1 ∧ b1.ID = "b1"
      ∧ b1.Status = StatusClosed ∧ b1.Status ≠ StatusOpen :=
  ⟨by decide!,
    C19_status_monotonic 7 7 activeClosedBill activeClosedBillAfterAdd
      (.AddLineItem { LineItem := mkItem "i2" 100 2, BillID := "b1", Currency := USD })
      (by decide!) 0 (closedBill "b1" USD 6 [mkItem "i1" 3 2]) rfl rfl⟩

/-! ## C20: replay determinism of the handlers -/

/-- C20: on an active loop with one open bill, the CloseBill(b1) event handled at
logical time 5 ends in different states when the wall clock reads 100 and when it
reads 200, and the closedAt it writes is the wall-clock reading 100, not the logical
time 5; the same holds for CloseBillingPeriod.  The claim says the state after an
event depends only on the prior state, the payload and the logical time. -/
theorem C20_close_reads_wall_clock :
    selectStep 5 100 activeOneBill (.CloseBill closeFirstBill)
      ≠ selectStep 5 200 activeOneBill (.CloseBill closeFirstBill)
    ∧ (selectStep 5 100 activeOneBill (.CloseBill closeFirstBill)).map
        (fun st => st.input.BillStates.map fun b => b.ClosedAt) = some [100]
    ∧ selectStep 5 100 activeOneBill .CloseBillingPeriod
      ≠ selectStep 5 200 activeOneBill .CloseBillingPeriod
    ∧ (selectStep 5 100 activeOneBill .CloseBillingPeriod).map
        (fun st => st.input.BillStates.map fun b => b.ClosedAt) = some [100] := by
  decide!

/-! ## C21: close-bill for a bill that does not exist -/

/-- C21: for every period state and every CloseBill signal whose billId matches no
bill, `handleCloseBillSignal` returns (it is a total function) and the state it
returns is the state it was given; as an event of the loop it leaves the loop state
as it was. -/
theorem C21_close_missing_bill_noop (wall now : Time) (st : LoopState)
    (signal : CloseBillSignal) (hmiss : ∀ b ∈ st.input.BillStates, b.ID ≠ signal.BillID) :
    handleCloseBillSignal wall st.input signal = st.input
    ∧ selectStep now wall st (.CloseBill signal) = some st := by
  have hf : FindBillState st.input.BillStates signal.BillID = none :=
    (FindBillState_eq_none_iff _ _).mpr hmiss
  have h1 : handleCloseBillSignal wall st.input signal = st.input := by
    simp [handleCloseBillSignal, hf]
  exact ⟨h1, by simp [selectStep, h1]⟩

/-- C21 at a period with one open bill `b1`: CloseBill(b2) changes nothing. -/
theorem C21_close_missing_bill_noop_witness :
    handleCloseBillSignal 9 activeOneBill.input { Reason := "done", BillID := "b2" }
      = activeOneBill.input
    ∧ selectStep 8 9 activeOneBill (.CloseBill { Reason := "done", BillID := "b2" })
      = some activeOneBill :=
  C21_close_missing_bill_noop 9 8 activeOneBill { Reason := "done", BillID := "b2" }
    (by decide)

/-! ## C22: the model method Bill.AddLineItem -/

/-- C22: `Bill.AddLineItem item` appends item as the last line item, the earlier
items unchanged, and increases totalAmount by item.amount × item.quantity; if
totalAmount = CalculateTotal held before the call it holds after it; adding
(amount 7, quantity 2) to an empty bill gives one item and total 14. -/
theorem C22_bill_add_line_item (b : Bill) (item : LineItem) :
    (b.AddLineItem item).LineItems = b.LineItems ++ [item]
    ∧ (b.AddLineItem item).LineItems.getLast? = some item
    ∧ (b.AddLineItem item).TotalAmount = b.TotalAmount + item.Amount * (item.Quantity : ℚ)
    ∧ (b.TotalAmount = b.CalculateTotal →
        (b.AddLineItem item).TotalAmount = (b.AddLineItem item).CalculateTotal)
    ∧ ((openBill "b1" USD 0 []).AddLineItem (mkItem "i1" 7 2)).LineItems.length = 1
    ∧ ((openBill "b1" USD 0 []).AddLineItem (mkItem "i1" 7 2)).TotalAmount = 14 := by
  refine ⟨rfl, by simp [Bill.AddLineItem], rfl, ?_, rfl, ?_⟩
  · intro h
    rw [CalculateTotal_eq_sum] at h ⊢
    simp [Bill.AddLineItem, h, lineItemsSum]
  · norm_num [Bill.AddLineItem, openBill, mkItem]

/-- C22 at the bill of `TestBill_AddLineItem`: the empty bill has total 0 =
CalculateTotal, and after adding (7, 2) the total 14 is again CalculateTotal. -/
theorem C22_bill_add_line_item_witness :
    (openBill "b1" USD 0 []).TotalAmount = (openBill "b1" USD 0 []).CalculateTotal
    ∧ ((openBill "b1" USD 0 []).AddLineItem (mkItem "i1" 7 2)).TotalAmount
      = ((openBill "b1" USD 0 []).AddLineItem (mkItem "i1" 7 2)).CalculateTotal :=
  ⟨rfl, (C22_bill_add_line_item (openBill "b1" USD 0 []) (mkItem "i1" 7 2)).2.2.2.1 rfl⟩

/-! ## C23: validation of the add-line-item request -/

/-- C23: `validateAddLineItemRequest` returns an error iff the description is empty,
or the amount is negative, or the quantity is ≤ 0, or the currency is neither `USD`
nor `GEL`, and nil otherwise; when several conditions fail the error reported is the
first in the order description, amount, quantity, currency. -/
theorem C23_validate_add_line_item (req : AddLineItemRequest) :
    ((validateAddLineItemRequest req).isSome
        ↔ (req.Description = "" ∨ req.Amount < 0 ∨ req.Quantity ≤ 0
            ∨ (req.Currency ≠ "USD" ∧ req.Currency ≠ "GEL")))
    ∧ (validateAddLineItemRequest req = none
        ↔ ¬ (req.Description = "" ∨ req.Amount < 0 ∨ req.Quantity ≤ 0
            ∨ (req.Currency ≠ "USD" ∧ req.Currency ≠ "GEL")))
    ∧ (req.Description = "" →
        validateAddLineItemRequest req = some "description is required")
    ∧ (req.Description ≠ "" → req.Amount < 0 →
        validateAddLineItemRequest req = some "amount must be non-negative")
    ∧ (req.Description ≠ "" → ¬ req.Amount < 0 → req.Quantity ≤ 0 →
        validateAddLineItemRequest req = some "quantity must be positive")
    ∧ (req.Description ≠ "" → ¬ req.Amount < 0 → ¬ req.Quantity ≤ 0 →
        req.Currency ≠ "USD" → req.Currency ≠ "GEL" →
        validateAddLineItemRequest req
          = some ("invalid currency: " ++ req.Currency ++ " (supported: USD, GEL)")) := by
  have hvalid : Currency.IsValid req.Currency = true
      ↔ (req.Currency = "USD" ∨ req.Currency = "GEL") := by
    simp [Currency.IsValid, USD, GEL]
  by_cases h1 : req.Description = ""
  · simp [validateAddLineItemRequest, h1]
  · by_cases h2 : req.Amount < 0
    · simp [validateAddLineItemRequest, h1, h2]
    · by_cases h3 : req.Quantity ≤ 0
      · simp [validateAddLineItemRequest, h1, h2, h3]
      · by_cases h4 : Currency.IsValid req.Currency = true
        · have h5 := hvalid.mp h4
          have h6 : ¬ (req.Currency ≠ "USD" ∧ req.Currency ≠ "GEL") := by
            rintro ⟨ha, hb⟩
            rcases h5 with h | h
            · exact ha h
            · exact hb h
          simp only [validateAddLineItemRequest, h1, h2, h3, h4, if_false, Bool.not_true,
            Bool.false_eq_true, Option.isSome_none, false_or, h6, not_false_eq_true,
            true_and, not_true_eq_false, false_implies, implies_true, ne_eq, iff_self,
            and_true]
          intro _ _ _ ha hb
          exact absurd ⟨ha, hb⟩ h6
        · have h5 : req.Currency ≠ "USD" ∧ req.Currency ≠ "GEL" := by
            constructor
            · intro h
              exact h4 (hvalid.mpr (Or.inl h))
            · intro h
              exact h4 (hvalid.mpr (Or.inr h))
          have h7 : Currency.IsValid req.Currency = false := by
            simpa using h4
          simp [validateAddLineItemRequest, h1, h2, h3, h7, h5]

/-- C23 at a request failing all four checks: the description error is reported;
and the request of `TestAddLineItemToBill` is accepted. -/
theorem C23_validate_add_line_item_witness :
    validateAddLineItemRequest
        { Description := "", Amount := -1, Quantity := 0, Currency := "EUR" }
      = some "description is required"
    ∧ validateAddLineItemRequest
        { Description := "Test Item 1", Amount := 100, Quantity := 1, Currency := "USD" }
      = none :=
  ⟨(C23_validate_add_line_item
      { Description := "", Amount := -1, Quantity := 0, Currency := "EUR" }).2.2.1 rfl,
    (C23_validate_add_line_item
      { Description := "Test Item 1", Amount := 100, Quantity := 1, Currency := "USD" }).2.1.mpr
      (by decide!)⟩

/-! ## C24: the summary of a closed billing period -/

/-- C24: the summary the CloseBillingPeriod API computes from the list of closed
bills has FinalAmountUSD = Σ over those bills of ConvertCurrencyAmount(bill.currency,
USD, bill.totalAmount) and FinalAmountGEL = ConvertCurrencyAmount(USD, GEL,
FinalAmountUSD) = 2.5 × FinalAmountUSD; the bills it sums are the ones the list-bills
query returns for status CLOSED. -/
theorem C24_period_summary (workflowId : String) (finalizedBills : List Bill)
    (ws : BillWorkflowInput) :
    (CloseBillingPeriod workflowId finalizedBills).FinalAmountUSD
      = (finalizedBills.map fun bill =>
          ConvertCurrencyAmount bill.Currency USD bill.TotalAmount).sum
    ∧ (CloseBillingPeriod workflowId finalizedBills).FinalAmountGEL
      = ConvertCurrencyAmount USD GEL (CloseBillingPeriod workflowId finalizedBills).FinalAmountUSD
    ∧ (CloseBillingPeriod workflowId finalizedBills).FinalAmountGEL
      = 5 / 2 * (CloseBillingPeriod workflowId finalizedBills).FinalAmountUSD
    ∧ (CloseBillingPeriod workflowId finalizedBills).Bills = finalizedBills
    ∧ (CloseBillingPeriod workflowId
        (setListBillsQueryHandler ws { Status := StatusClosed }).1).FinalAmountUSD
      = ((ws.BillStates.filter fun b => decide (b.Status = StatusClosed)).map fun bill =>
          ConvertCurrencyAmount bill.Currency USD bill.TotalAmount).sum := by
  have hsum : ∀ l : List Bill, (CloseBillingPeriod workflowId l).FinalAmountUSD
      = (l.map fun bill => ConvertCurrencyAmount bill.Currency USD bill.TotalAmount).sum := by
    intro l
    simp only [CloseBillingPeriod]
    rw [foldl_add_eq_sum (fun bill : Bill =>
      ConvertCurrencyAmount bill.Currency USD bill.TotalAmount)]
    simp
  refine ⟨hsum _, rfl, ?_, rfl, ?_⟩
  · exact (convert_USD_GEL _).trans (mul_comm _ _)
  · rw [hsum, listBills_eq_filter]

/-- C24 at the period of `TestCloseBillingPeriod`: one closed USD bill with total 100
gives FinalAmountUSD = 100 and FinalAmountGEL = 250. -/
theorem C24_period_summary_witness :
    (CloseBillingPeriod "wf-1" [closedBill "b1" USD 100 [mkItem "i1" 100 1]]).FinalAmountUSD
      = 100
    ∧ (CloseBillingPeriod "wf-1" [closedBill "b1" USD 100 [mkItem "i1" 100 1]]).FinalAmountGEL
      = 250 := by
  have h := C24_period_summary "wf-1" [closedBill "b1" USD 100 [mkItem "i1" 100 1]]
    (periodOf [])
  have h1 : (CloseBillingPeriod "wf-1"
      [closedBill "b1" USD 100 [mkItem "i1" 100 1]]).FinalAmountUSD = 100 := by
    rw [h.1]
    decide!
  refine ⟨h1, ?_⟩
  rw [h.2.2.1, h1]
  norm_num

/-! ## C25: the total of a bill over a trace -/

/-- C25: for every bill with currency c that a bill id resolves to and that has no
line items yet, and every finite sequence of AddLineItem signals (amount_i,
quantity_i, currency_i) for that id, each handled no later than 24h after the period
start, the signals are all handled and the CloseBill that follows leaves the bill
Closed with totalAmount = Σ_i ConvertCurrencyAmount(currency_i, c, amount_i) ×
quantity_i. -/
theorem C25_trace_total (wall : Time) (ws : BillWorkflowInput) (billID reason : String)
    (b : Bill) (signals : List (Time × AddLineItemSignal))
    (hfind : FindBillState ws.BillStates billID = some b)
    (hopen : b.Status = StatusOpen) (hempty : b.LineItems = [])
    (hsignals : ∀ p ∈ signals, p.2.BillID = billID ∧ p.1 ≤ ws.StartedAt + 24 * Hour) :
    ∃ (ws1 : BillWorkflowInput) (b1 b2 : Bill),
      handleAddLineItemSignals ws signals = some ws1
        ∧ FindBillState ws1.BillStates billID = some b1
        ∧ b1.Status = StatusOpen
        ∧ FindBillState
            (handleCloseBillSignal wall ws1 { Reason := reason, BillID := billID }).BillStates
            billID = some b2
        ∧ b2.Status = StatusClosed
        ∧ b2.TotalAmount
          = (signals.map fun p =>
              ConvertCurrencyAmount p.2.Currency b.Currency p.2.LineItem.Amount
                * (p.2.LineItem.Quantity : ℚ)).sum := by
  obtain ⟨ws1, b1, h1, h2, _, h4, h5⟩ :=
    handleAddLineItemSignals_find billID signals ws b hfind hsignals
  refine ⟨ws1, b1, b1.Close wall reason, h1, h2, h4.trans hopen,
    handleCloseBillSignal_find wall ws1 { Reason := reason, BillID := billID } b1 h2, rfl, ?_⟩
  show (b1.Close wall reason).CalculateTotal = _
  rw [CalculateTotal_eq_sum]
  show lineItemsSum b1.LineItems = _
  rw [h5, hempty]
  simp [lineItemsSum]

/-- C25 at a USD bill with the items (100, 1, USD) and (200, 2, GEL): the closed
total is 260. -/
theorem C25_trace_total_witness :
    ∃ (ws1 : BillWorkflowInput) (b2 : Bill),
      handleAddLineItemSignals (periodOf [openBill "b1" USD 0 []]) traceSignals = some ws1
        ∧ FindBillState
            (handleCloseBillSignal 9 ws1 { Reason := "done", BillID := "b1" }).BillStates
            "b1" = some b2
        ∧ b2.Status = StatusClosed
        ∧ b2.TotalAmount = 260 := by
  obtain ⟨ws1, _, b2, h1, _, _, h4, h5, h6⟩ :=
    C25_trace_total 9 (periodOf [openBill "b1" USD 0 []]) "b1" "done"
      (openBill "b1" USD 0 []) traceSignals (by decide) rfl rfl (by decide)
  exact ⟨ws1, b2, h1, h4, h5, h6.trans (by decide!)⟩

/-! ## C26: append-only history -/

/-- C26: for every event the loop handles, the bills before the event are a prefix
of the bills after it by position and id (the ids after are the ids before followed
by the created ones, no bill is deleted or reordered), and for every bill the line
items before the event are a prefix of its line items after it, each existing line
item unchanged in its place. -/
theorem C26_append_only (now wall : Time) (st st1 : LoopState) (e : Event)
    (hstep : selectStep now wall st e = some st1) :
    (∃ created : List String, billIDs st1.input = billIDs st.input ++ created)
    ∧ st.input.BillStates.length ≤ st1.input.BillStates.length
    ∧ ∀ (i : Nat) (b : Bill), st.input.BillStates[i]? = some b →
        ∃ (b1 : Bill) (added : List LineItem),
          st1.input.BillStates[i]? = some b1
            ∧ b1.ID = b.ID
            ∧ b1.LineItems = b.LineItems ++ added
            ∧ ∀ (j : Nat) (item : LineItem), b.LineItems[j]? = some item →
                b1.LineItems[j]? = some item := by
  have hids := selectStep_ids now wall st st1 e hstep
  refine ⟨⟨_, hids⟩, ?_, ?_⟩
  · have hlen := congrArg List.length hids
    simp only [billIDs, List.length_map, List.length_append] at hlen
    omega
  · intro i b hb
    obtain ⟨b1, h1, h2, added, h3⟩ := selectStep_slot_rel
      (fun x y => y.ID = x.ID ∧ ∃ added : List LineItem, y.LineItems = x.LineItems ++ added)
      (fun x => ⟨rfl, [], by simp⟩)
      (fun x _ _ => ⟨rfl, [], by simp [Bill.Close]⟩)
      (fun x items _ => ⟨rfl, items, rfl⟩)
      now wall st st1 e hstep i b hb
    refine ⟨b1, added, h1, h2, h3, ?_⟩
    intro j item hj
    have hlt : j < b.LineItems.length := (List.getElem?_eq_some.mp hj).1
    rw [h3, List.getElem?_append_left hlt]
    exact hj

/-- C26 at a bill with one line item that receives an AddLineItem signal: the bill
keeps its slot and id and its first line item, and one item is added after it. -/
theorem C26_append_only_witness :
    selectStep 7 7 activeClosedBill
        (.AddLineItem { LineItem := mkItem "i2" 100 2, BillID := "b1", Currency := USD })
      = some activeClosedBillAfterAdd
    ∧ activeClosedBill.input.BillStates.length ≤ activeClosedBillAfterAdd.input.BillStates.length
    ∧ ∃ (b1 : Bill) (added : List LineItem),
        activeClosedBillAfterAdd.input.BillStates[0]? = some b1
          ∧ b1.ID = "b1"
          ∧ b1.LineItems = [mkItem "i1" 3 2] ++ added
          ∧ ∀ (j : Nat) (item : LineItem), [mkItem "i1" 3 2][j]? = some item →
              b1.LineItems[j]? = some item :=
  ⟨by decide!,
    (C26_append_only 7 7 activeClosedBill activeClosedBillAfterAdd
      (.AddLineItem { LineItem := mkItem "i2" 100 2, BillID := "b1", Currency := USD })
      (by decide!)).2.1,
    (C26_append_only 7 7 activeClosedBill activeClosedBillAfterAdd
      (.AddLineItem { LineItem := mkItem "i2" 100 2, BillID := "b1", Currency := USD })
      (by decide!)).2.2 0 (closedBill "b1" USD 6 [mkItem "i1" 3 2]) rfl⟩

/-! ## C27: the deadline duration -/

/-- C27: the start request with BillingPeriodDays = 106752 is accepted by
`validateStartBillingPeriodRequest`, and the deadline `time.Duration(days) * 24 *
time.Hour` computed for it in 64-bit nanoseconds is -9223371273709551616: negative,
not the 9223372800000000000 ns that 106752 days are, where the claim says positive
and exact for every accepted value.  For 0 < days ≤ 106751 the deadline is exact and
positive. -/
theorem C27_deadline_wraps :
    validateStartBillingPeriodRequest longPeriodRequest = none
    ∧ billingDuration longPeriodInput = -9223371273709551616
    ∧ billingDuration longPeriodInput < 0
    ∧ longPeriodInput.BillingPeriodDays * 24 * Hour = 9223372800000000000
    ∧ ∀ input : BillWorkflowInput, 0 < input.BillingPeriodDays →
        input.BillingPeriodDays ≤ 106751 →
        billingDuration input = input.BillingPeriodDays * 24 * Hour
          ∧ 0 < billingDuration input := by
  refine ⟨by decide, by decide, by decide, by decide, ?_⟩
  intro input h1 h2
  have e1 : wrap64 input.BillingPeriodDays = input.BillingPeriodDays :=
    wrap64_of_range _ (by omega) (by omega)
  have e2 : wrap64 (input.BillingPeriodDays * 24) = input.BillingPeriodDays * 24 :=
    wrap64_of_range _ (by omega) (by omega)
  have e3 : wrap64 (input.BillingPeriodDays * 24 * Hour)
      = input.BillingPeriodDays * 24 * Hour := by
    apply wrap64_of_range
    · simp only [Hour]
      omega
    · simp only [Hour]
      omega
  simp only [billingDuration, e1, e2, e3]
  refine ⟨trivial, ?_⟩
  simp only [Hour]
  omega

/-! ## C28: valid statuses and the open/closed partition -/

/-- C28: every event the loop handles (CreateBill, AddLineItem on an existing bill,
CloseBill, CloseBillingPeriod, timer) preserves the predicate that every bill's
status is OPEN or CLOSED (`BillStatus.IsValid`); and in any state satisfying it
ListBills(OPEN) and ListBills(CLOSED) partition the bills: together they are a
rearrangement of the bills, no bill is in both, each bill is in exactly one, and
their lengths sum to the number of bills. -/
theorem C28_status_valid_partition (now wall : Time) (st st1 : LoopState) (e : Event)
    (hvalid : ∀ b ∈ st.input.BillStates, BillStatus.IsValid b.Status = true) :
    (selectStep now wall st e = some st1 →
      ∀ b ∈ st1.input.BillStates, BillStatus.IsValid b.Status = true)
    ∧ List.Perm
        ((setListBillsQueryHandler st.input { Status := StatusOpen }).1
          ++ (setListBillsQueryHandler st.input { Status := StatusClosed }).1)
        st.input.BillStates
    ∧ (∀ b, ¬ (b ∈ (setListBillsQueryHandler st.input { Status := StatusOpen }).1
        ∧ b ∈ (setListBillsQueryHandler st.input { Status := StatusClosed }).1))
    ∧ (∀ b ∈ st.input.BillStates,
        (b ∈ (setListBillsQueryHandler st.input { Status := StatusOpen }).1
          ∧ b ∉ (setListBillsQueryHandler st.input { Status := StatusClosed }).1)
        ∨ (b ∈ (setListBillsQueryHandler st.input { Status := StatusClosed }).1
          ∧ b ∉ (setListBillsQueryHandler st.input { Status := StatusOpen }).1))
    ∧ (setListBillsQueryHandler st.input { Status := StatusOpen }).1.length
        + (setListBillsQueryHandler st.input { Status := StatusClosed }).1.length
      = st.input.BillStates.length := by
  have hv : ∀ b ∈ st.input.BillStates, b.Status = StatusOpen ∨ b.Status = StatusClosed :=
    fun b hb => (IsValid_iff _).mp (hvalid b hb)
  have hclosed : st.input.BillStates.filter (fun b => decide (b.Status = StatusClosed))
      = st.input.BillStates.filter (fun b => !decide (b.Status = StatusOpen)) := by
    apply List.filter_congr
    intro b hb
    rcases hv b hb with h | h
    · simp [h, StatusOpen_ne_StatusClosed]
    · simp [h, StatusOpen_ne_StatusClosed.symm]
  have hperm : List.Perm
      ((setListBillsQueryHandler st.input { Status := StatusOpen }).1
        ++ (setListBillsQueryHandler st.input { Status := StatusClosed }).1)
      st.input.BillStates := by
    rw [listBills_eq_filter, listBills_eq_filter, hclosed]
    exact List.filter_append_perm _ _
  refine ⟨?_, hperm, ?_, ?_, ?_⟩
  · intro hstep b hb
    exact (IsValid_iff _).mpr (selectStep_statusValid now wall st st1 e hv hstep b hb)
  · intro b
    rw [listBills_eq_filter, listBills_eq_filter]
    simp only [List.mem_filter, decide_eq_true_eq, not_and, and_imp]
    intro _ h1 _ h2
    exact StatusOpen_ne_StatusClosed (h1.symm.trans h2)
  · intro b hb
    rw [listBills_eq_filter, listBills_eq_filter]
    simp only [List.mem_filter, decide_eq_true_eq, hb, true_and]
    rcases hv b hb with h | h
    · left
      exact ⟨h, by rw [h]; exact StatusOpen_ne_StatusClosed⟩
    · right
      exact ⟨h, by rw [h]; exact StatusOpen_ne_StatusClosed.symm⟩
  · have hlen := hperm.length_eq
    simpa using hlen

/-- C28 at the state after closing a period that holds an open and a closed bill:
before the step OPEN lists one bill and CLOSED one; the step keeps the statuses
valid. -/
theorem C28_status_valid_partition_witness :
    (∀ b ∈ (periodOf [openBill "b1" USD 0 [], closedBill "b2" USD 0 []]).BillStates,
      BillStatus.IsValid b.Status = true)
    ∧ (∀ b ∈ (closeAllBillsDueToTimeout 9
        (periodOf [openBill "b1" USD 0 [], closedBill "b2" USD 0 []])).BillStates,
      BillStatus.IsValid b.Status = true)
    ∧ (setListBillsQueryHandler (periodOf [openBill "b1" USD 0 [], closedBill "b2" USD 0 []])
          { Status := StatusOpen }).1.length
        + (setListBillsQueryHandler
          (periodOf [openBill "b1" USD 0 [], closedBill "b2" USD 0 []])
          { Status := StatusClosed }).1.length
      = 2 :=
  ⟨by decide,
    (C28_status_valid_partition 9 9
      { input := periodOf [openBill "b1" USD 0 [], closedBill "b2" USD 0 []],
        timerFired := false }
      { input := closeAllBillsDueToTimeout 9
          (periodOf [openBill "b1" USD 0 [], closedBill "b2" USD 0 []]),
        timerFired := false }
      .CloseBillingPeriod (by decide)).1 rfl,
    (C28_status_valid_partition 9 9
      { input := periodOf [openBill "b1" USD 0 [], closedBill "b2" USD 0 []],
        timerFired := false }
      { input := closeAllBillsDueToTimeout 9
          (periodOf [openBill "b1" USD 0 [], closedBill "b2" USD 0 []]),
        timerFired := false }
      .CloseBillingPeriod (by decide)).2.2.2.2⟩

/-! ## C29: the currency round trip -/

/-- C29 as stated fails on the float64 arithmetic of the source: the float64 amount 3
converted GEL → USD → GEL comes back as 3 + 2^-51 (printed 3.0000000000000004), not
3, and the float64 nearest to 0.01 converted USD → GEL → USD does not come back
either; the float64 constants 2.5 and 0.4 are not exact inverses, their product
being 1 + 2^-54. -/
theorem C29_round_trip_fails_in_float64 :
    roundFloat64 3 = 3
    ∧ ConvertCurrencyAmountFloat64 GEL USD 3 = 5404319552844596 / 4503599627370496
    ∧ ConvertCurrencyAmountFloat64 USD GEL (ConvertCurrencyAmountFloat64 GEL USD 3)
      = 3 + 1 / 2 ^ 51
    ∧ ConvertCurrencyAmountFloat64 USD GEL (ConvertCurrencyAmountFloat64 GEL USD 3) ≠ 3
    ∧ ConvertCurrencyAmountFloat64 GEL USD
        (ConvertCurrencyAmountFloat64 USD GEL (roundFloat64 (1 / 100)))
      ≠ roundFloat64 (1 / 100)
    ∧ roundFloat64 (5 / 2) * roundFloat64 (2 / 5) = 1 + 1 / 2 ^ 54 := by
  decide!

/-- C29, amended: in the float64 arithmetic of the source, for every pair of codes
other than USD/GEL (in either order) converting there and back returns the amount
exactly, and the amount 0 comes back as 0 for every pair; for every pair, USD/GEL
included, and every amount of magnitude from 2^-1000 to 2^1000 the round trip returns
the amount up to rounding, |result - a| ≤ 2^-51 × |a|, both converted values lying in
the normal float64 range, where the rounding used here is the float64 one; at the
test amounts 10 and 100 the round trip is exact in both directions. -/
theorem C29_round_trip_amended (a : ℚ) (currency1 currency2 : Currency) :
    (¬ (currency1 = USD ∧ currency2 = GEL) → ¬ (currency1 = GEL ∧ currency2 = USD) →
      ConvertCurrencyAmountFloat64 currency2 currency1
        (ConvertCurrencyAmountFloat64 currency1 currency2 a) = a)
    ∧ ConvertCurrencyAmountFloat64 currency2 currency1
        (ConvertCurrencyAmountFloat64 currency1 currency2 0) = 0
    ∧ (1 / 2 ^ 1000 ≤ |a| → |a| ≤ 2 ^ 1000 →
        |ConvertCurrencyAmountFloat64 currency2 currency1
            (ConvertCurrencyAmountFloat64 currency1 currency2 a) - a| ≤ |a| / 2 ^ 51
          ∧ 1 / 2 ^ 1022 ≤ |ConvertCurrencyAmountFloat64 currency1 currency2 a|
          ∧ |ConvertCurrencyAmountFloat64 currency1 currency2 a| < 2 ^ 1024
          ∧ 1 / 2 ^ 1022 ≤ |ConvertCurrencyAmountFloat64 currency2 currency1
              (ConvertCurrencyAmountFloat64 currency1 currency2 a)|
          ∧ |ConvertCurrencyAmountFloat64 currency2 currency1
              (ConvertCurrencyAmountFloat64 currency1 currency2 a)| < 2 ^ 1024)
    ∧ ConvertCurrencyAmountFloat64 GEL USD (ConvertCurrencyAmountFloat64 USD GEL 10) = 10
    ∧ ConvertCurrencyAmountFloat64 USD GEL (ConvertCurrencyAmountFloat64 GEL USD 10) = 10
    ∧ ConvertCurrencyAmountFloat64 GEL USD (ConvertCurrencyAmountFloat64 USD GEL 100) = 100
    ∧ ConvertCurrencyAmountFloat64 USD GEL (ConvertCurrencyAmountFloat64 GEL USD 100) = 100 := by
  refine ⟨?_, ?_, ?_, by decide!, by decide!, by decide!, by decide!⟩
  · intro hug hgu
    by_cases heq : currency1 = currency2
    · subst heq
      simp [ConvertCurrencyAmountFloat64]
    · have hne : ¬ currency2 = currency1 := fun h => heq h.symm
      have hug2 : ¬ (currency2 = USD ∧ currency1 = GEL) := fun h => hgu ⟨h.2, h.1⟩
      have hgu2 : ¬ (currency2 = GEL ∧ currency1 = USD) := fun h => hug ⟨h.2, h.1⟩
      simp only [ConvertCurrencyAmountFloat64, if_neg heq, if_neg hug, if_neg hgu,
        if_neg hne, if_neg hug2, if_neg hgu2]
  · have h := ConvertCurrencyAmountFloat64_round_trip_error currency1 currency2 0
    simp only [abs_zero, zero_div, sub_zero] at h
    exact abs_nonpos_iff.mp h
  · intro hlo hhi
    obtain ⟨h1, h2⟩ := ConvertCurrencyAmountFloat64_abs currency1 currency2 a
    obtain ⟨h3, h4⟩ := ConvertCurrencyAmountFloat64_abs currency2 currency1
      (ConvertCurrencyAmountFloat64 currency1 currency2 a)
    have k1 : (1 : ℚ) / 2 ^ 1022 ≤ 1 / 2 ^ 1000 * (3 / 10) * (3 / 10) := by norm_num
    have k2 : (2 : ℚ) ^ 1000 * 3 * 3 < 2 ^ 1024 := by norm_num
    have k3 : (0 : ℚ) ≤ 1 / 2 ^ 1000 := by positivity
    refine ⟨ConvertCurrencyAmountFloat64_round_trip_error currency1 currency2 a,
      ?_, ?_, ?_, ?_⟩
    · linarith
    · linarith
    · linarith
    · linarith

/-- C29, amended, at the amount 100 converted USD → GEL → USD: the amount lies
between 2^-1000 and 2^1000, the round trip is within 2^-51 × 100 of 100, and the
converted value is a normal float64 value. -/
theorem C29_round_trip_amended_witness :
    (1 : ℚ) / 2 ^ 1000 ≤ |100|
    ∧ |(100 : ℚ)| ≤ 2 ^ 1000
    ∧ |ConvertCurrencyAmountFloat64 GEL USD (ConvertCurrencyAmountFloat64 USD GEL 100) - 100|
      ≤ |100| / 2 ^ 51
    ∧ 1 / 2 ^ 1022 ≤ |ConvertCurrencyAmountFloat64 USD GEL 100|
    ∧ |ConvertCurrencyAmountFloat64 USD GEL 100| < 2 ^ 1024 :=
  ⟨by norm_num, by norm_num,
    ((C29_round_trip_amended 100 USD GEL).2.2.1 (by norm_num) (by norm_num)).1,
    ((C29_round_trip_amended 100 USD GEL).2.2.1 (by norm_num) (by norm_num)).2.1,
    ((C29_round_trip_amended 100 USD GEL).2.2.1 (by norm_num) (by norm_num)).2.2.1⟩

end BillProcessing
